import Mathlib

/-!
Verification of the scheduling/optimization core of the `llgsps` satellite
ground-station scheduling project, shallowly embedded from the Python sources:

* `backend/app/core/latency.py`        — `LatencyEstimator`
* `backend/app/scheduling/baseline.py` — `create_baseline_schedule`
* `backend/app/scheduling/optimizer.py`— `AdvancedSchedulingOptimizer`

Modelling conventions:

* Python floats are modelled by `ℚ`.  `math.sqrt` (an exactly-rounded IEEE-754
  square root) is modelled by `ratSqrt`, a fixed-precision (10⁻⁹) rational
  square-root approximation via Newton iteration on naturals.
* ISO-8601 timestamps are modelled by their POSIX timestamps as `ℚ`.
  `datetime.fromisoformat` parsing happens *before* a `GroundPass` value
  exists in the embedding, so the `try/except` branch of
  `estimate_transfer_time_detailed` (malformed timestamps → `None`) cannot
  fire here; the function still returns `Option` to keep the call-site
  structure (`if estimation and estimation['is_feasible']`).
  Python compares ISO strings lexicographically when sorting passes; for
  timestamps rendered in one uniform ISO format this equals the numeric
  order used here.
* `round(x, n)` on floats is modelled by round-half-up on `ℚ` at `n` decimal
  digits (`pyRound`); `int(x)` (truncation toward zero) by `pyInt`.
* `LatencyEstimator.__init__` takes no parameters, so every instance carries
  the same constants; they are embedded as top-level definitions.
-/

/-- Newton iteration for the integer square root, structurally recursive on
a fuel argument so that it evaluates inside the kernel. -/
def sqrtIter : ℕ → ℕ → ℕ → ℕ
  | 0, _, g => g
  | fuel+1, n, g =>
    let g2 := (g + n / g) / 2
    if g2 < g then sqrtIter fuel n g2 else g

/-- Model of `math.sqrt` on nonnegative inputs: a rational approximation of
`√x` accurate to about 10⁻⁹, standing in for the exactly-rounded IEEE-754
double-precision square root used by the Python code. -/
def ratSqrt (x : ℚ) : ℚ :=
  let n : ℕ := (x * 10^18).floor.toNat
  (sqrtIter 400 n (n / 2 + 1) : ℚ) / 10^9

/-- Model of Python `round(x, n)` (round-half-up on rationals; float
banker's rounding differs only at exact decimal ties, which the sources
never rely on). -/
def pyRound (x : ℚ) (n : ℕ) : ℚ := ((round (x * 10^n) : ℤ) : ℚ) / 10^n

/-- Model of Python `int(x)`: truncation toward zero. -/
def pyInt (x : ℚ) : ℤ := if 0 ≤ x then ⌊x⌋ else -⌊-x⌋

/-! ## `latency.py`: constants of `LatencyEstimator.__init__` -/

def SPEED_OF_LIGHT : ℚ := 299792458
def EARTH_RADIUS : ℚ := 6371000
def default_data_rate_mbps : ℚ := 150
def protocol_overhead : ℚ := 15/100
def handshake_time : ℚ := 2
def error_correction_overhead : ℚ := 8/100

/-- Model of `self.weather_degradation.get(weather_condition, 1.0)`: the weather
table with default factor `1.0` for unknown keys. -/
def weather_degradation (weather_condition : String) : ℚ :=
  if weather_condition = "clear" then 1
  else if weather_condition = "light_clouds" then 95/100
  else if weather_condition = "heavy_clouds" then 85/100
  else if weather_condition = "rain" then 7/10
  else if weather_condition = "storm" then 5/10
  else 1

/-- Value of `math.cos(math.radians(45.0))`, the single representative elevation
sample used by every caller of the propagation-delay code
(`avg_elevation_deg = 45.0` in `estimate_transfer_time_detailed`). -/
def cos45 : ℚ := ratSqrt (1/2)

/-- Value of `math.sin(math.radians(45.0))`. -/
def sin45 : ℚ := ratSqrt (1/2)

/-- Model of `LatencyEstimator.calculate_signal_propagation_delay`, specialised to the
45° elevation sample used at every call site (the trigonometric factors are
the constants `cos45`/`sin45`). -/
def calculate_signal_propagation_delay (satellite_altitude_km : ℚ) : ℚ :=
  let altitude_m := satellite_altitude_km * 1000
  let satellite_distance := EARTH_RADIUS + altitude_m
  let slant_range :=
    ratSqrt (satellite_distance^2 - EARTH_RADIUS^2 * cos45^2) - EARTH_RADIUS * sin45
  (2 * slant_range) / SPEED_OF_LIGHT

/-- Model of `LatencyEstimator.estimate_data_rate_degradation`. -/
def estimate_data_rate_degradation (elevation_angle_deg : ℚ)
    (weather_condition : String) : ℚ :=
  let elevation_factor := min 1 (max (3/10) (elevation_angle_deg / 90))
  let weather_factor := weather_degradation weather_condition
  elevation_factor * weather_factor

/-- Model of `LatencyEstimator.calculate_effective_data_rate`. -/
def calculate_effective_data_rate (base_rate_mbps : ℚ) (elevation_angle_deg : ℚ)
    (weather_condition : String) : ℚ :=
  let degradation_factor := estimate_data_rate_degradation elevation_angle_deg weather_condition
  let effective_rate := base_rate_mbps * degradation_factor
  let effective_rate := effective_rate * (1 - protocol_overhead)
  let effective_rate := effective_rate * (1 - error_correction_overhead)
  max 1 effective_rate

/-- A ground pass, with `rise_time`/`set_time` as POSIX timestamps.
(`culmination_time` is present in the source records but unused by the
scheduling core, and is omitted.) -/
structure GroundPass where
  rise_time : ℚ
  set_time : ℚ
deriving DecidableEq

/-- The dictionary returned by `estimate_transfer_time_detailed` (the
`base_data_rate_mbps`, `weather_condition` and `estimated_elevation_deg`
echo fields are omitted; they are copies of the inputs). -/
structure TransferEstimate where
  is_feasible : Bool
  total_required_time_seconds : ℚ
  data_transfer_time_seconds : ℚ
  overhead_time_seconds : ℚ
  pass_duration_seconds : ℚ
  effective_data_rate_mbps : ℚ
  propagation_delay_seconds : ℚ
  data_efficiency : ℚ
  pass_utilization : ℚ
deriving DecidableEq

/-- Model of `LatencyEstimator.estimate_transfer_time_detailed`. -/
def estimate_transfer_time_detailed (pass_info : GroundPass) (data_demand_mb : ℚ)
    (base_data_rate_mbps : Option ℚ) (weather_condition : String)
    (satellite_altitude_km : ℚ) : Option TransferEstimate :=
  let pass_duration_seconds := pass_info.set_time - pass_info.rise_time
  let base := base_data_rate_mbps.getD default_data_rate_mbps
  let effective_rate_mbps := calculate_effective_data_rate base 45 weather_condition
  let propagation_delay := calculate_signal_propagation_delay satellite_altitude_km
  let data_transfer_time := (data_demand_mb * 8) / effective_rate_mbps
  let total_overhead_time := handshake_time + 2 * propagation_delay
  let total_required_time := data_transfer_time + total_overhead_time
  let is_feasible := decide (pass_duration_seconds ≥ total_required_time)
  let data_efficiency :=
    if total_required_time > 0 then data_transfer_time / total_required_time else 0
  let pass_utilization :=
    if pass_duration_seconds > 0 then total_required_time / pass_duration_seconds else 0
  some
    { is_feasible := is_feasible
      total_required_time_seconds := pyRound total_required_time 2
      data_transfer_time_seconds := pyRound data_transfer_time 2
      overhead_time_seconds := pyRound total_overhead_time 2
      pass_duration_seconds := pyRound pass_duration_seconds 2
      effective_data_rate_mbps := pyRound effective_rate_mbps 2
      propagation_delay_seconds := pyRound propagation_delay 3
      data_efficiency := pyRound data_efficiency 3
      pass_utilization := pyRound pass_utilization 3 }

/-- The estimator call shared by the baseline scheduler and the optimizer
preprocessing: default base rate, weather `"clear"`, altitude 408 km. -/
def estimateDefault (pass_info : GroundPass) (data_demand_mb : ℚ) : Option TransferEstimate :=
  estimate_transfer_time_detailed pass_info data_demand_mb none "clear" 408

/-- A data demand record.  `priority` models `demand.get('priority', 1.0)`
(a missing key behaves exactly like an explicit `1.0`), `deadline` models
`demand.get('deadline')` with `none` for a missing key, as a POSIX
timestamp.  The optional free-text label is unused by the core and omitted. -/
structure DataDemand where
  satellite : String
  data_mb : ℚ
  priority : ℚ
  deadline : Option ℚ
deriving DecidableEq

/-! ## `baseline.py`: the greedy scheduler -/

/-- A scheduled-contact dictionary as built by `create_baseline_schedule`
(the constant `ground_station` field is omitted).  The fields from
`src_pass` on are ghost provenance used only to state and prove theorems:
they record which pass/demand produced the contact and the estimate used.
They do not influence the computation. -/
structure BaselineContact where
  satellite : String
  demand_mb : ℚ
  start_time : ℚ
  end_time : ℚ
  duration_seconds : ℚ
  data_efficiency : ℚ
  effective_data_rate_mbps : ℚ
  src_pass : GroundPass
  pass_idx : ℕ
  src_demand : DataDemand
  demand_idx : ℕ
  est : TransferEstimate
deriving DecidableEq

/-- Stable insertion of `x` into a sorted list of elements that originally
appeared to the right of `x`: `x` goes before the first element `y` with
`le x y` (so before any equal element).  Together with `pySorted` this
models Python's stable `sorted`. -/
def insertStable (le : α → α → Bool) (x : α) : List α → List α
  | [] => [x]
  | y :: ys => if le x y then x :: y :: ys else y :: insertStable le x ys

/-- Model of Python `sorted(l, key=...)` (a stable sort by `le`). -/
def pySorted (le : α → α → Bool) : List α → List α
  | [] => []
  | x :: xs => insertStable le x (pySorted le xs)

/-- The inner loop of `create_baseline_schedule`: scan the remaining demand
queue in order and return the first demand whose estimate is feasible,
together with the estimate and the queue with that demand removed.
The queue carries the original input index of each demand as ghost data
(`remaining_demands.remove(demand)` removes the first value-equal element,
which is exactly the element found, since any earlier value-equal element
would itself have had a feasible estimate). -/
def findFeasibleDemand (p : GroundPass) :
    List (ℕ × DataDemand) → Option ((ℕ × DataDemand) × TransferEstimate × List (ℕ × DataDemand))
  | [] => none
  | d :: rest =>
    match estimateDefault p d.2.data_mb with
    | some est =>
      if est.is_feasible then some (d, est, rest)
      else
        match findFeasibleDemand p rest with
        | some (x, e, q) => some (x, e, d :: q)
        | none => none
    | none =>
      match findFeasibleDemand p rest with
      | some (x, e, q) => some (x, e, d :: q)
      | none => none

/-- The pass loop of `create_baseline_schedule`.  `station_busy_until` is
`none` for its initial value `datetime.min`, which is below every parseable
timestamp.  Contacts are accumulated in reverse (the list is reversed at
the end). -/
def baselineLoop :
    List (ℕ × GroundPass) → Option ℚ → List (ℕ × DataDemand) → List BaselineContact →
    List BaselineContact × List (ℕ × DataDemand)
  | [], _, queue, acc => (acc.reverse, queue)
  | p :: rest, busy, queue, acc =>
    if queue.isEmpty then (acc.reverse, queue)
    else if busy.all (fun b => p.2.rise_time ≥ b) then
      match findFeasibleDemand p.2 queue with
      | some ((dIdx, d), est, queue2) =>
        let contact_end := p.2.rise_time + est.total_required_time_seconds
        let contact : BaselineContact :=
          { satellite := d.satellite
            demand_mb := d.data_mb
            start_time := p.2.rise_time
            end_time := contact_end
            duration_seconds := est.total_required_time_seconds
            data_efficiency := est.data_efficiency
            effective_data_rate_mbps := est.effective_data_rate_mbps
            src_pass := p.2
            pass_idx := p.1
            src_demand := d
            demand_idx := dIdx
            est := est }
        baselineLoop rest (some contact_end) queue2 (contact :: acc)
      | none => baselineLoop rest busy queue acc
    else baselineLoop rest busy queue acc

/-- Model of `create_baseline_schedule(all_passes, data_demands)`.  Passes are sorted
chronologically (ISO strings compare lexicographically, i.e. numerically for
a uniform format); the sort comparator ignores the ghost input indices, and
the sort is stable, so the pass-value sequence is exactly the one the Python
code iterates.  Returns (scheduled contacts, remaining demand queue); the
Python function returns the demand dictionaries, i.e. the `snd` components
of the returned queue. -/
def create_baseline_schedule (all_passes : List GroundPass) (data_demands : List DataDemand) :
    List BaselineContact × List (ℕ × DataDemand) :=
  let sorted_passes :=
    pySorted (fun a b => decide (a.2.rise_time ≤ b.2.rise_time)) all_passes.enum
  baselineLoop sorted_passes none data_demands.enum []

/-! ## `optimizer.py`: data types -/

/-- The `OptimizationObjective` enumeration. -/
inductive OptimizationObjective
  | MAXIMIZE_DATA_THROUGHPUT
  | MINIMIZE_SCHEDULE_SPAN
  | MAXIMIZE_PRIORITY_WEIGHTED
  | BALANCE_EFFICIENCY_FAIRNESS
deriving DecidableEq

/-- Model of `SchedulingConstraint`.  The `parameters` dictionary is modelled by the
two keys the optimizer ever reads: `parameters.get("gap_seconds", 300)` and
`parameters.get("max_contacts", 5)`, with `none` for a missing key. -/
structure SchedulingConstraint where
  constraint_type : String
  gap_seconds : Option ℚ
  max_contacts : Option ℤ
  weight : ℚ
  is_hard_constraint : Bool
deriving DecidableEq

/-- A feasible pass-demand assignment dictionary built by
`preprocess_scheduling_data` (the `estimation_details` echo field is
represented by the stored metric fields). -/
structure FeasibleAssignment where
  pass_idx : ℕ
  demand_idx : ℕ
  pass_info : GroundPass
  demand : DataDemand
  duration_seconds : ℤ
  data_efficiency : ℚ
  pass_utilization : ℚ
  effective_data_rate : ℚ
  priority : ℚ
  deadline : Option ℚ
deriving DecidableEq

/-- Model of `AdvancedSchedulingOptimizer.preprocess_scheduling_data`: the candidate
pool of individually feasible (pass, demand) pairs, in double-loop order
(passes outer, demands inner). -/
def preprocess_scheduling_data (passes : List GroundPass) (demands : List DataDemand) :
    List FeasibleAssignment :=
  (passes.enum.map (fun pi =>
    demands.enum.filterMap (fun di =>
      match estimateDefault pi.2 di.2.data_mb with
      | some est =>
        if est.is_feasible then
          some
            { pass_idx := pi.1
              demand_idx := di.1
              pass_info := pi.2
              demand := di.2
              duration_seconds := pyInt est.total_required_time_seconds
              data_efficiency := est.data_efficiency
              pass_utilization := est.pass_utilization
              effective_data_rate := est.effective_data_rate_mbps
              priority := di.2.priority
              deadline := di.2.deadline }
        else none
      | none => none))).flatten

/-! ## `optimizer.py`: the CP-SAT model

The CP-SAT model built by `create_cp_sat_model` is represented as data: one
boolean variable per pool entry (numbered by pool position), an optional
interval per entry for the single `AddNoOverlap`, a list of linear
constraints, and the linear objective (to maximize).  A candidate solution
is a `List Bool` giving each variable's value; `solvesB` is the CP-SAT
satisfaction relation for such a model.  The external CP-SAT solver itself
is not part of the repository: a returned solution with status
`OPTIMAL`/`FEASIBLE` is any `sel` with `solvesB m sel`, and `OPTIMAL`
additionally means no solution has larger objective value. -/

/-- An optional interval `NewOptionalIntervalVar(start, size, start+size, var)`. -/
structure MInterval where
  var : ℕ
  start : ℤ
  size : ℤ
deriving DecidableEq

/-- A linear constraint of the model. -/
inductive MConstraint
  /-- `model.AddAtMostOne(vars)` -/
  | atMostOne (vars : List ℕ)
  /-- `model.Add(var == 0)` -/
  | forceFalse (var : ℕ)
  /-- `model.Add(sum(vars) <= bound)` -/
  | sumLe (vars : List ℕ) (bound : ℤ)
deriving DecidableEq

/-- The CP-SAT model as data. -/
structure CpModel where
  num_vars : ℕ
  intervals : List MInterval
  constraints : List MConstraint
  objective : List ℤ
deriving DecidableEq

/-- Value of variable `i` in a candidate solution (out-of-range reads are
`false`; the models built here always have `sel.length = num_vars`). -/
def selVar (sel : List Bool) (i : ℕ) : Bool := sel.getD i false

/-- First-occurrence deduplication, keeping the first copy of each value.
This determinizes the iteration order of the Python `set(...)` /
dict-insertion constructions in the optimizer (for `set` of ints Python
fixes no order; no claim depends on the order chosen). -/
def dedupFirstAux [DecidableEq α] (seen : List α) : List α → List α
  | [] => []
  | x :: xs => if x ∈ seen then dedupFirstAux seen xs else x :: dedupFirstAux (x :: seen) xs

def dedupFirst [DecidableEq α] (l : List α) : List α := dedupFirstAux [] l

/-- Constraint 1 of `create_cp_sat_model`: for each demand index occurring
in the pool, at most one of its assignment variables is true. -/
def atMostOneConstraints (pool : List FeasibleAssignment) : List MConstraint :=
  (dedupFirst (pool.map (·.demand_idx))).map (fun d =>
    .atMostOne ((pool.enum.filter (fun ia => ia.2.demand_idx = d)).map (·.1)))

/-- Constraint 2 of `create_cp_sat_model`: the optional interval of pool
entry `i` starts at `int(datetime.fromisoformat(rise_time).timestamp())`
and lasts `duration_seconds`. -/
def modelIntervals (pool : List FeasibleAssignment) : List MInterval :=
  pool.enum.map (fun ia =>
    { var := ia.1, start := pyInt ia.2.pass_info.rise_time, size := ia.2.duration_seconds })

/-- Model of `_add_custom_constraints`, for one `SchedulingConstraint`: the
`minimum_gap` branch reads `gap_seconds` but adds no constraint; the
`maximum_contacts_per_satellite` branch groups assignment variables by the
demand's satellite name (dict insertion order: first occurrence) and bounds
each group's sum; `priority_ordering` and unknown types add nothing. -/
def customConstraintsFor (pool : List FeasibleAssignment) (c : SchedulingConstraint) :
    List MConstraint :=
  if c.constraint_type = "minimum_gap" then
    let _min_gap_seconds := c.gap_seconds.getD 300
    []
  else if c.constraint_type = "maximum_contacts_per_satellite" then
    let max_contacts := c.max_contacts.getD 5
    (dedupFirst (pool.map (·.demand.satellite))).map (fun s =>
      .sumLe ((pool.enum.filter (fun ia => ia.2.demand.satellite = s)).map (·.1)) max_contacts)
  else []

/-- Model of `_add_deadline_constraints`: an assignment whose pass rise time is
strictly after its demand's deadline has its variable forced to `0`. -/
def deadlineConstraints (pool : List FeasibleAssignment) : List MConstraint :=
  pool.enum.filterMap (fun ia =>
    match ia.2.demand.deadline with
    | some dl => if ia.2.pass_info.rise_time > dl then some (.forceFalse ia.1) else none
    | none => none)

/-- Model of `_set_optimization_objective`: the per-variable objective coefficients
(all integer-scaled with `int(...)`).  `MINIMIZE_SCHEDULE_SPAN` has no
branch of its own and falls into the default (data-throughput) case. -/
def objectiveCoeffs (pool : List FeasibleAssignment) :
    OptimizationObjective → List ℤ
  | .MAXIMIZE_DATA_THROUGHPUT => pool.map (fun a => pyInt a.demand.data_mb)
  | .MAXIMIZE_PRIORITY_WEIGHTED => pool.map (fun a => pyInt (a.demand.data_mb * a.priority))
  | .BALANCE_EFFICIENCY_FAIRNESS =>
      pool.map (fun a => pyInt (a.data_efficiency * 1000) + pyInt a.demand.data_mb)
  | .MINIMIZE_SCHEDULE_SPAN => pool.map (fun a => pyInt a.demand.data_mb)

/-- Model of `create_cp_sat_model(feasible_assignments, objective, constraints)`.
`constraints=None` is the empty list (`if constraints:` skips the custom
block for both `None` and `[]`, which equals appending no constraints). -/
def create_cp_sat_model (pool : List FeasibleAssignment)
    (objective : OptimizationObjective) (constraints : List SchedulingConstraint) : CpModel :=
  { num_vars := pool.length
    intervals := modelIntervals pool
    constraints :=
      atMostOneConstraints pool
        ++ (constraints.map (customConstraintsFor pool)).flatten
        ++ deadlineConstraints pool
    objective := objectiveCoeffs pool objective }

/-- Pairwise test on a list. -/
def pairwiseB (f : α → α → Bool) : List α → Bool
  | [] => true
  | x :: xs => xs.all (f x) && pairwiseB f xs

/-- CP-SAT semantics of one linear constraint. -/
def constraintHolds (sel : List Bool) : MConstraint → Bool
  | .atMostOne vs => vs.countP (selVar sel) ≤ 1
  | .forceFalse v => !selVar sel v
  | .sumLe vs b => (vs.countP (selVar sel) : ℤ) ≤ b

/-- CP-SAT semantics of `AddNoOverlap` over optional intervals: two
intervals that are both present and both of positive length must not
overlap (zero-length intervals may sit anywhere). -/
def noOverlapHolds (sel : List Bool) (ivs : List MInterval) : Bool :=
  pairwiseB (fun I J =>
    !(selVar sel I.var) || !(selVar sel J.var) ||
      I.size ≤ 0 || J.size ≤ 0 ||
      (decide (I.start + I.size ≤ J.start) || decide (J.start + J.size ≤ I.start))) ivs

/-- Holds when `sel` is a solution of the model (what CP-SAT returns with status
`OPTIMAL` or `FEASIBLE`). -/
def solvesB (m : CpModel) (sel : List Bool) : Bool :=
  sel.length == m.num_vars
    && m.constraints.all (constraintHolds sel)
    && noOverlapHolds sel m.intervals

/-- Value of `solver.ObjectiveValue()` for a solution. -/
def objectiveValue (m : CpModel) (sel : List Bool) : ℤ :=
  (m.objective.enum.map (fun ic => if selVar sel ic.1 then ic.2 else 0)).sum

/-- Holds when `sel` is an optimal solution: it solves the model and no solution has a
larger objective (what CP-SAT returns with status `OPTIMAL`). -/
def OptimalSolution (m : CpModel) (sel : List Bool) : Prop :=
  solvesB m sel = true ∧
    ∀ s : List Bool, solvesB m s = true → objectiveValue m s ≤ objectiveValue m sel

/-- All candidate solutions of a given length (for deciding optimality on
concrete models). -/
def allSelections : ℕ → List (List Bool)
  | 0 => [[]]
  | n+1 => ((allSelections n).map (fun s => false :: s)) ++ ((allSelections n).map (fun s => true :: s))

/-! ## `optimizer.py`: solution extraction (`solve_optimization_model`) -/

/-- A scheduled-contact dictionary built by `solve_optimization_model`
(the constant `ground_station` and the `estimation_details` echo are
omitted).  Fields from `src_assignment` on are ghost provenance for the
theorems below: they record the pool entry the contact came from and do not
influence the computation. -/
structure ScheduledContact where
  satellite : String
  demand_mb : ℚ
  start_time : ℚ
  end_time : ℚ
  duration_seconds : ℤ
  data_efficiency : ℚ
  pass_utilization : ℚ
  effective_data_rate_mbps : ℚ
  priority : ℚ
  src_assignment : FeasibleAssignment
deriving DecidableEq

/-- The contact dictionary built for one selected assignment, with
`end_time = start + timedelta(seconds=duration_seconds)`. -/
def contactOfAssignment (a : FeasibleAssignment) : ScheduledContact :=
  { satellite := a.demand.satellite
    demand_mb := a.demand.data_mb
    start_time := a.pass_info.rise_time
    end_time := a.pass_info.rise_time + (a.duration_seconds : ℚ)
    duration_seconds := a.duration_seconds
    data_efficiency := a.data_efficiency
    pass_utilization := a.pass_utilization
    effective_data_rate_mbps := a.effective_data_rate
    priority := a.priority
    src_assignment := a }

/-- The extraction loop over selected variables: build one contact per true
variable. -/
def extractContacts (pool : List FeasibleAssignment) (sel : List Bool) :
    List ScheduledContact :=
  pool.enum.filterMap (fun ia =>
    if selVar sel ia.1 then some (contactOfAssignment ia.2) else none)

/-- The demand indices marked scheduled during extraction. -/
def scheduled_demand_indices (pool : List FeasibleAssignment) (sel : List Bool) : List ℕ :=
  pool.enum.filterMap (fun ia => if selVar sel ia.1 then some ia.2.demand_idx else none)

/-- Faithful model of building
`set(a['demand'] for a in feasible_assignments)` (the `all_demands` line of
`solve_optimization_model`): constructing a set hashes each element, and
Python dicts are unhashable, so the expression raises
`TypeError: unhashable type: dict` for every non-empty pool.  Only the
empty pool (an empty generator, which hashes nothing) yields a value. -/
def pySetOfDemands (pool : List FeasibleAssignment) :
    Except String (List DataDemand) :=
  if pool.isEmpty then Except.ok [] else Except.error "TypeError: unhashable type: dict"

/-- Value the `all_demands = list(set(a['demand'] for a in
feasible_assignments))` line *aims to compute*: first-occurrence value-based
deduplication of the pool demands.  The faithful execution is
`pySetOfDemands`, which raises `TypeError` for every non-empty pool (dict
demands are unhashable); this intended value is used to exhibit the
index-space bugs that would remain even with hashable demands (see C1). -/
def all_demands_of_pool (pool : List FeasibleAssignment) : List DataDemand :=
  dedupFirst (pool.map (·.demand))

/-- The `unscheduled_demands` list `solve_optimization_model` aims to
compute (reachable only for the empty pool — see `pySetOfDemands`):
positions *within the deduplicated pool-demand list* that were never added
to `scheduled_demand_indices` (which instead holds original demand-list
indices). -/
def unscheduled_demands_of (pool : List FeasibleAssignment) (sel : List Bool) :
    List DataDemand :=
  ((all_demands_of_pool pool).enum.filter
    (fun id => id.1 ∉ scheduled_demand_indices pool sel)).map (·.2)

/-- Model of `OptimizationResult` (solve time and the always-empty
`constraint_violations` are omitted). -/
structure OptimizationResult where
  scheduled_contacts : List ScheduledContact
  unscheduled_demands : List DataDemand
  optimization_status : String
  objective_value : ℤ
  total_data_scheduled : ℚ
  schedule_efficiency : ℚ
  resource_utilization : ℚ
  solution_quality : String
deriving DecidableEq

/-- Model of `solve_optimization_model` under the *intended* set semantics
of its `all_demands` line, given the solution `sel` returned by the CP-SAT
search and the solver status name.  The faithful execution is
`solve_optimization_model_run`: in CPython the `all_demands` line raises
`TypeError` for every non-empty pool, so the fields below past the
extraction loop (`unscheduled_demands`, `schedule_efficiency`) are only
ever computed for the empty pool.  The pre-crash content — the extraction
loop's `scheduled_contacts`, `total_data_scheduled` and the solver's
objective value — is unaffected by that collapse.  Contacts are sorted by
start time (Python sorts the ISO string `start_time`, which orders like
the numeric timestamp for a uniform format). -/
def solve_optimization_model (pool : List FeasibleAssignment) (m : CpModel)
    (sel : List Bool) (status : String) : OptimizationResult :=
  let scheduled := extractContacts pool sel
  let total_data_scheduled := (scheduled.map (·.demand_mb)).sum
  let total_possible_data := ((all_demands_of_pool pool).map (·.data_mb)).sum
  { scheduled_contacts := pySorted (fun a b => decide (a.start_time ≤ b.start_time)) scheduled
    unscheduled_demands := unscheduled_demands_of pool sel
    optimization_status := status
    objective_value := objectiveValue m sel
    total_data_scheduled := total_data_scheduled
    schedule_efficiency :=
      if total_possible_data > 0 then total_data_scheduled / total_possible_data else 0
    resource_utilization :=
      if pool.isEmpty then 0 else (scheduled.length : ℚ) / (pool.length : ℚ)
    solution_quality := status }

/-- Faithful model of `solve_optimization_model` as executed by CPython:
the extraction loop completes, then the
`all_demands = list(set(a['demand'] for a in feasible_assignments))` line
raises `TypeError` for every non-empty pool.  Only the empty pool produces
a result, and there it coincides with the intended-semantics extraction. -/
def solve_optimization_model_run (pool : List FeasibleAssignment) (m : CpModel)
    (sel : List Bool) (status : String) : Except String OptimizationResult :=
  match pySetOfDemands pool with
  | Except.error e => Except.error e
  | Except.ok _ => Except.ok (solve_optimization_model pool m sel status)

/-- The degenerate result returned by `create_advanced_schedule` when the
candidate pool is empty. -/
def noFeasibleResult (demands : List DataDemand) : OptimizationResult :=
  { scheduled_contacts := []
    unscheduled_demands := demands
    optimization_status := "NO_FEASIBLE_ASSIGNMENTS"
    objective_value := 0
    total_data_scheduled := 0
    schedule_efficiency := 0
    resource_utilization := 0
    solution_quality := "INFEASIBLE" }

/-- Model of `create_advanced_schedule`, parameterised over the external CP-SAT
search (`solver`), which maps the built model to the solution it returns
and its status name.  If the pool is empty the function short-circuits and
`solver` is never consulted. -/
def create_advanced_schedule (solver : CpModel → List Bool × String)
    (passes : List GroundPass) (demands : List DataDemand)
    (objective : OptimizationObjective) (constraints : List SchedulingConstraint) :
    OptimizationResult :=
  let pool := preprocess_scheduling_data passes demands
  if pool.isEmpty then noFeasibleResult demands
  else
    let m := create_cp_sat_model pool objective constraints
    let s := solver m
    solve_optimization_model pool m s.1 s.2

/-! ## Derived notions used by the claims -/

/-- Disjointness of two half-open `[start, end)` time intervals. -/
def ivDisjoint (s₁ e₁ s₂ e₂ : ℚ) : Prop :=
  Disjoint (Set.Ico s₁ e₁) (Set.Ico s₂ e₂)

/-- Disjointness of the `[start_time, end_time)` intervals of two contacts
of the optimizer result. -/
def contactsDisjoint (c d : ScheduledContact) : Prop :=
  ivDisjoint c.start_time c.end_time d.start_time d.end_time

/-- Disjointness of the `[start_time, end_time)` intervals of two contacts
of the baseline schedule. -/
def bContactsDisjoint (c d : BaselineContact) : Prop :=
  ivDisjoint c.start_time c.end_time d.start_time d.end_time

/-- The characteristic selection of a set of variable indices. -/
def indicator (n : ℕ) (idxs : List ℕ) : List Bool :=
  (List.range n).map (fun i => decide (i ∈ idxs))

/-- Bounded (hence decidable) check that `sel` is an optimal solution. -/
def optimalB (m : CpModel) (sel : List Bool) : Bool :=
  solvesB m sel &&
    (allSelections m.num_vars).all
      (fun s => !solvesB m s || decide (objectiveValue m s ≤ objectiveValue m sel))

/-- Chaining invariant for the baseline accumulator (stored newest-first):
the newest contact ends by the station-busy bound, and every older contact
ends by the time the next one starts. -/
def RevChained : List BaselineContact → Option ℚ → Prop
  | [], _ => True
  | c :: rest, busy => (∀ b, busy = some b → c.end_time ≤ b) ∧ RevChained rest (some c.start_time)

/-! ## Concrete inputs used by counterexamples and witnesses -/

/-- A 600-second pass starting at timestamp 0. -/
def pass600 : GroundPass := { rise_time := 0, set_time := 600 }

/-- A demand far too large for `pass600` (about 38 hours of transfer). -/
def demandBig : DataDemand :=
  { satellite := "SAT-A", data_mb := 1000000, priority := 1, deadline := none }

/-- A 100 MB demand, easily feasible in `pass600`. -/
def demandOk : DataDemand :=
  { satellite := "SAT-B", data_mb := 100, priority := 1, deadline := none }

/-- Pool for the C1/C9 counterexamples: one pass, demands `[demandBig, demandOk]`;
only `demandOk` (original index 1) is feasible. -/
def poolC1 : List FeasibleAssignment :=
  preprocess_scheduling_data [pass600] [demandBig, demandOk]

def modelC1 : CpModel := create_cp_sat_model poolC1 .MAXIMIZE_DATA_THROUGHPUT []

def resultC1 : OptimizationResult := solve_optimization_model poolC1 modelC1 [true] "OPTIMAL"

/-- Two passes whose rise times carry fractional seconds. -/
def passHalf : GroundPass := { rise_time := 1/2, set_time := 10 }

def passLate : GroundPass := { rise_time := 21/10, set_time := 12 }

/-- Two zero-volume demands (all solutions are optimal for data throughput). -/
def demandZeroA : DataDemand :=
  { satellite := "SAT-A", data_mb := 0, priority := 1, deadline := none }

def demandZeroB : DataDemand :=
  { satellite := "SAT-B", data_mb := 0, priority := 1, deadline := none }

def poolC2 : List FeasibleAssignment :=
  preprocess_scheduling_data [passHalf, passLate] [demandZeroA, demandZeroB]

def modelC2 : CpModel := create_cp_sat_model poolC2 .MAXIMIZE_DATA_THROUGHPUT []

def selC2 : List Bool := [true, false, false, true]

/-- A demand whose deadline (timestamp −1) precedes every pass. -/
def demandPastDeadline : DataDemand :=
  { satellite := "SAT-D", data_mb := 100, priority := 1, deadline := some (-1) }

def poolC3 : List FeasibleAssignment :=
  preprocess_scheduling_data [pass600] [demandPastDeadline]

def modelC3 : CpModel := create_cp_sat_model poolC3 .MAXIMIZE_DATA_THROUGHPUT []

/-- The pass used by the C10 counterexample: its duration is exactly the
required transfer time of `demandC10`, namely 10.0055 s, which
`round(·, 2)` rounds up to 10.01 s. -/
def passC10 : GroundPass := { rise_time := 0, set_time := 100055/10000 }

/-- A demand size chosen so that the total required time in `passC10` is
exactly 10.0055 seconds (transfer time = 10.0055 − handshake −
2·propagation delay at the default 58.65 Mbps effective rate). -/
def demandC10 : DataDemand :=
  { satellite := "SAT-C"
    data_mb :=
      (100055/10000 - (handshake_time + 2 * calculate_signal_propagation_delay 408))
        * calculate_effective_data_rate 150 45 "clear" / 8
    priority := 1
    deadline := none }

/-- Transfer-time component of `estimateDefault` (default rate, clear sky). -/
def transferTime (mb : ℚ) : ℚ := mb * 8 / calculate_effective_data_rate 150 45 "clear"

/-- Overhead component of `estimateDefault` (handshake plus round-trip
propagation at 408 km). -/
def overheadTime : ℚ := handshake_time + 2 * calculate_signal_propagation_delay 408

/-- Total required time of `estimateDefault`, before rounding. -/
def reqTime (mb : ℚ) : ℚ := transferTime mb + overheadTime

/-- A demand with a deadline comfortably after `pass600`'s rise time. -/
def demandDeadlineOk : DataDemand :=
  { satellite := "SAT-E", data_mb := 100, priority := 1, deadline := some 1000 }

/-- A caller-supplied minimum-gap constraint. -/
def gMinGap : SchedulingConstraint :=
  { constraint_type := "minimum_gap", gap_seconds := some 120, max_contacts := none
    weight := 1, is_hard_constraint := true }

/-- A stub external solver (used to instantiate witnesses; the theorems
quantify over the solver). -/
def solverStub : CpModel → List Bool × String := fun _ => ([], "FEASIBLE")

/-- Provenance of a baseline contact: its ghost fields point back at a
real pass, a real demand (by original index), and the feasible estimate
that scheduled it, and its visible fields are determined by them. -/
def BaselineProv (passes : List GroundPass) (demands : List DataDemand)
    (c : BaselineContact) : Prop :=
  passes.get? c.pass_idx = some c.src_pass ∧
  demands.get? c.demand_idx = some c.src_demand ∧
  estimateDefault c.src_pass c.src_demand.data_mb = some c.est ∧
  c.est.is_feasible = true ∧
  c.start_time = c.src_pass.rise_time ∧
  c.end_time = c.start_time + c.est.total_required_time_seconds ∧
  c.demand_mb = c.src_demand.data_mb

/-- The pool index holding the (pass index, demand index) pair of a
baseline contact. -/
def contactPoolIdx (pool : List FeasibleAssignment) (c : BaselineContact) : ℕ :=
  pool.findIdx (fun a => a.pass_idx == c.pass_idx && a.demand_idx == c.demand_idx)

/-- The selection of the pool entries matching the baseline contacts. -/
def baselineSel (pool : List FeasibleAssignment) (contacts : List BaselineContact) :
    List Bool :=
  indicator pool.length (contacts.map (contactPoolIdx pool))

unseal Rat.mul Rat.add Rat.sub Rat.inv Rat.ofScientific

/-! ## Numeric helper lemmas -/

theorem pyRound_le_add (x : ℚ) (n : ℕ) : pyRound x n ≤ x + 1 / (2 * 10 ^ n) := by
  have hpos : (0 : ℚ) < 10 ^ n := by positivity
  have h := Int.floor_le (x * 10 ^ n + 1/2)
  rw [pyRound, round_eq]
  rw [div_le_iff₀ hpos]
  calc ((⌊x * 10 ^ n + 1/2⌋ : ℚ)) ≤ x * 10 ^ n + 1/2 := h
    _ = (x + 1 / (2 * 10 ^ n)) * 10 ^ n := by field_simp; ring

theorem sub_le_pyRound (x : ℚ) (n : ℕ) : x - 1 / (2 * 10 ^ n) ≤ pyRound x n := by
  have hpos : (0 : ℚ) < 10 ^ n := by positivity
  have h := Int.lt_floor_add_one (x * 10 ^ n + 1/2)
  rw [pyRound, round_eq]
  rw [le_div_iff₀ hpos]
  have : (x - 1 / (2 * 10 ^ n)) * 10 ^ n = x * 10 ^ n + 1/2 - 1 := by field_simp; ring
  rw [this]
  linarith

theorem pyRound_nonneg {x : ℚ} (n : ℕ) (hx : 0 ≤ x) : 0 ≤ pyRound x n := by
  have hpos : (0 : ℚ) < 10 ^ n := by positivity
  have h0 : (0 : ℚ) ≤ x * 10 ^ n + 1/2 := by positivity
  rw [pyRound, round_eq]
  have : (0 : ℤ) ≤ ⌊x * 10 ^ n + 1/2⌋ := by
    rw [Int.le_floor]; exact_mod_cast h0
  positivity

theorem pyInt_of_nonneg {x : ℚ} (hx : 0 ≤ x) : pyInt x = ⌊x⌋ := if_pos hx

theorem pyInt_le {x : ℚ} (hx : 0 ≤ x) : (pyInt x : ℚ) ≤ x := by
  rw [pyInt_of_nonneg hx]; exact Int.floor_le x

theorem pyInt_nonneg {x : ℚ} (hx : 0 ≤ x) : 0 ≤ pyInt x := by
  rw [pyInt_of_nonneg hx]; exact Int.floor_nonneg.2 hx

theorem pyInt_natCast (k : ℕ) : pyInt (k : ℚ) = (k : ℤ) := by
  rw [pyInt_of_nonneg (by positivity)]; exact_mod_cast Int.floor_natCast k

theorem one_le_effective_rate (b e : ℚ) (w : String) :
    1 ≤ calculate_effective_data_rate b e w := le_max_left _ _

theorem prop_delay_nonneg : 0 ≤ calculate_signal_propagation_delay 408 := by decide

theorem overheadTime_ge_two : 2 ≤ overheadTime := by
  have := prop_delay_nonneg
  rw [overheadTime, handshake_time]
  linarith

theorem transferTime_nonneg {mb : ℚ} (h : 0 ≤ mb) : 0 ≤ transferTime mb := by
  rw [transferTime]
  have h1 : (0:ℚ) < calculate_effective_data_rate 150 45 "clear" :=
    lt_of_lt_of_le one_pos (one_le_effective_rate _ _ _)
  positivity

theorem reqTime_ge_two {mb : ℚ} (h : 0 ≤ mb) : 2 ≤ reqTime mb := by
  have := transferTime_nonneg h
  rw [reqTime]
  have := overheadTime_ge_two
  linarith

/-- Unfolding of the estimator call shared by the baseline scheduler and
the optimizer preprocessing. -/
theorem estimateDefault_eq (p : GroundPass) (mb : ℚ) :
    estimateDefault p mb = some
      { is_feasible := decide (p.set_time - p.rise_time ≥ reqTime mb)
        total_required_time_seconds := pyRound (reqTime mb) 2
        data_transfer_time_seconds := pyRound (transferTime mb) 2
        overhead_time_seconds := pyRound overheadTime 2
        pass_duration_seconds := pyRound (p.set_time - p.rise_time) 2
        effective_data_rate_mbps := pyRound (calculate_effective_data_rate 150 45 "clear") 2
        propagation_delay_seconds := pyRound (calculate_signal_propagation_delay 408) 3
        data_efficiency :=
          pyRound (if reqTime mb > 0 then transferTime mb / reqTime mb else 0) 3
        pass_utilization :=
          pyRound (if p.set_time - p.rise_time > 0 then
            reqTime mb / (p.set_time - p.rise_time) else 0) 3 } := rfl

/-- A feasible estimate's (rounded) required time exceeds the pass duration
by at most half a hundredth of a second. -/
theorem feasible_required_le {p : GroundPass} {mb : ℚ} {e : TransferEstimate}
    (h : estimateDefault p mb = some e) (hf : e.is_feasible = true) :
    e.total_required_time_seconds ≤ (p.set_time - p.rise_time) + 1/200 := by
  rw [estimateDefault_eq] at h
  obtain rfl : e = _ := (Option.some_injective _ h.symm)
  simp only [decide_eq_true_eq, ge_iff_le] at hf
  have h2 := pyRound_le_add (reqTime mb) 2
  norm_num at h2 ⊢
  linarith

/-- A feasible estimate comes with `reqTime mb ≤ pass duration`. -/
theorem feasible_reqTime_le {p : GroundPass} {mb : ℚ} {e : TransferEstimate}
    (h : estimateDefault p mb = some e) (hf : e.is_feasible = true) :
    reqTime mb ≤ p.set_time - p.rise_time := by
  rw [estimateDefault_eq] at h
  obtain rfl : e = _ := (Option.some_injective _ h.symm)
  simpa [decide_eq_true_eq, ge_iff_le] using hf

/-- The stored required time of any estimate. -/
theorem total_required_eq {p : GroundPass} {mb : ℚ} {e : TransferEstimate}
    (h : estimateDefault p mb = some e) :
    e.total_required_time_seconds = pyRound (reqTime mb) 2 := by
  rw [estimateDefault_eq] at h
  obtain rfl : e = _ := (Option.some_injective _ h.symm)
  rfl

/-! ## List helper lemmas -/

theorem mem_allSelections (s : List Bool) : s ∈ allSelections s.length := by
  induction s with
  | nil => simp [allSelections]
  | cons b t ih =>
    rw [List.length_cons, allSelections, List.mem_append]
    cases b
    · exact Or.inl (List.mem_map.2 ⟨t, ih, rfl⟩)
    · exact Or.inr (List.mem_map.2 ⟨t, ih, rfl⟩)

/-- Verified bounded optimality implies optimality. -/
theorem optimal_of_optimalB {m : CpModel} {sel : List Bool}
    (h : optimalB m sel = true) : OptimalSolution m sel := by
  rw [optimalB, Bool.and_eq_true] at h
  obtain ⟨h1, h2⟩ := h
  refine ⟨h1, fun s hs => ?_⟩
  rw [List.all_eq_true] at h2
  have hlen : s.length = m.num_vars := by
    have h3 := hs
    rw [solvesB, Bool.and_eq_true, Bool.and_eq_true, beq_iff_eq] at h3
    exact h3.1.1
  have hmem : s ∈ allSelections m.num_vars := hlen ▸ mem_allSelections s
  have := h2 s hmem
  rw [Bool.or_eq_true] at this
  rcases this with h | h
  · rw [Bool.not_eq_eq_eq_not, Bool.not_true] at h
    exact absurd hs (by simp [h])
  · exact of_decide_eq_true h

theorem pairwiseB_iff (f : α → α → Bool) (l : List α) :
    pairwiseB f l = true ↔ List.Pairwise (fun a b => f a b = true) l := by
  induction l with
  | nil => simp [pairwiseB]
  | cons x xs ih =>
    simp [pairwiseB, List.pairwise_cons, ih, List.all_eq_true, and_comm]

theorem insertStable_perm (le : α → α → Bool) (x : α) (l : List α) :
    List.Perm (insertStable le x l) (x :: l) := by
  induction l with
  | nil => rfl
  | cons y ys ih =>
    rw [insertStable]
    split
    · rfl
    · exact ((ih.cons y).trans (List.Perm.swap x y ys))

theorem pySorted_perm (le : α → α → Bool) (l : List α) : List.Perm (pySorted le l) l := by
  induction l with
  | nil => rfl
  | cons x xs ih =>
    exact (insertStable_perm le x (pySorted le xs)).trans (ih.cons x)

theorem mem_pySorted (le : α → α → Bool) (l : List α) (a : α) :
    a ∈ pySorted le l ↔ a ∈ l := (pySorted_perm le l).mem_iff

/-- A list with no duplicates in which any two elements satisfying `p` are
equal has at most one element satisfying `p`. -/
theorem countP_le_one_of_unique {l : List ℕ} (p : ℕ → Bool) (hnd : l.Nodup)
    (h : ∀ i ∈ l, ∀ j ∈ l, p i = true → p j = true → i = j) :
    l.countP p ≤ 1 := by
  induction l with
  | nil => simp
  | cons x xs ih =>
    rw [List.nodup_cons] at hnd
    rw [List.countP_cons]
    by_cases hp : p x = true
    · have hxs : xs.countP p = 0 := by
        rw [List.countP_eq_zero]
        intro j hj hpj
        exact absurd (h j (by simp [hj]) x (by simp) hpj hp ▸ hj) hnd.1
      simp [hxs, hp]
    · have : (if p x then 1 else 0) = 0 := by simp [hp]
      rw [this, Nat.add_zero]
      exact ih hnd.2 (fun i hi j hj hpi hpj => h i (by simp [hi]) j (by simp [hj]) hpi hpj)

/-! ## C7: Scenario B -/

/-- C7 counterexample: for a 360 s pass, 1200 MB demand, default rate,
clear weather and 408 km altitude, the code returns `is_feasible = true`
(the claim asserts `false`). -/
theorem C7_scenarioB_counterexample :
    (estimate_transfer_time_detailed { rise_time := 0, set_time := 360 } 1200 none "clear" 408).map
      (fun e => e.is_feasible) = some true := by decide

/-- C7 (amended): for a pass of duration 360 s, a demand of 1200 MB, the
default data rate, weather "clear" and altitude 408 km,
`estimate_transfer_time_detailed` returns `is_feasible = true`, the
required time being 165.69 s, well under 360 s. -/
theorem C7_scenarioB_amended :
    (estimate_transfer_time_detailed { rise_time := 0, set_time := 360 } 1200 none "clear" 408).map
      (fun e => (e.is_feasible, e.total_required_time_seconds)) = some (true, 16569/100) ∧
    (16569 : ℚ)/100 ≤ 360 := by
  constructor
  · decide
  · norm_num

/-! ## C8: the effective-data-rate formula -/

/-- C8: for every base rate `b`, elevation `e` and weather string `w`,
`calculate_effective_data_rate b e w` equals
`max 1 (b · clamp(e/90, 0.3, 1) · W(w) · (1 − 0.15) · (1 − 0.08))`, where
`W` is the weather-degradation table and every key outside the table gets
factor 1 (silently, never an error). -/
theorem C8_effective_rate_formula :
    (∀ (b e : ℚ) (w : String),
      calculate_effective_data_rate b e w =
        max 1 (b * max (3/10) (min 1 (e / 90)) * weather_degradation w
          * (1 - 15/100) * (1 - 8/100))) ∧
    (∀ w : String, w ≠ "clear" → w ≠ "light_clouds" → w ≠ "heavy_clouds" →
      w ≠ "rain" → w ≠ "storm" → weather_degradation w = 1) := by
  constructor
  · intro b e w
    rw [calculate_effective_data_rate, estimate_data_rate_degradation,
      protocol_overhead, error_correction_overhead]
    have hmm : min 1 (max (3/10) (e / 90)) = max (3/10) (min 1 (e / 90)) := by
      rw [min_max_distrib_left]
      norm_num
    rw [hmm]
    ring_nf
  · intro w h1 h2 h3 h4 h5
    simp [weather_degradation, h1, h2, h3, h4, h5]

/-- C8 witness: the formula at concrete inputs, including an unknown
weather key treated as factor 1. -/
theorem C8_effective_rate_formula_witness :
    weather_degradation "foggy" = 1 ∧
    calculate_effective_data_rate 150 45 "storm" =
      max 1 (150 * max (3/10) (min 1 ((45:ℚ) / 90)) * weather_degradation "storm"
        * (1 - 15/100) * (1 - 8/100)) :=
  ⟨C8_effective_rate_formula.2 "foggy" (by decide) (by decide) (by decide) (by decide) (by decide),
   C8_effective_rate_formula.1 150 45 "storm"⟩

/-! ## C1: the partition invariant -/

/-- C1 (code bug): on the input `passes = [pass600]`,
`demands = [demandBig, demandOk]`, the selection `[true]` is an optimal
solution of the built model, yet the extracted result lists `demandOk`
both as a scheduled contact and as unscheduled, while `demandBig` appears
nowhere — the claimed partition is violated (in CPython the same line even
raises `TypeError`, since `set()` is applied to unhashable demand dicts). -/
theorem C1_partition_violation :
    solvesB modelC1 [true] = true ∧
    OptimalSolution modelC1 [true] ∧
    resultC1.scheduled_contacts.map (fun c => c.src_assignment.demand) = [demandOk] ∧
    resultC1.unscheduled_demands = [demandOk] ∧
    demandBig ∉ resultC1.unscheduled_demands ∧
    demandBig ∉ resultC1.scheduled_contacts.map (fun c => c.src_assignment.demand) :=
  ⟨by decide, optimal_of_optimalB (by decide), by decide, by decide, by decide, by decide⟩

/-! ## C9: schedule efficiency -/

/-- C9 (code bug): `schedule_efficiency` is never computed for a non-empty
pool at all.  On `passes = [pass600]`, `demands = [demandBig, demandOk]`
the pool is non-empty and `[true]` is an optimal solution, yet the faithful
run of `solve_optimization_model` stops with the `TypeError` that
`set(a['demand'] for a in feasible_assignments)` raises on unhashable
demand dicts — it returns no result carrying any `schedule_efficiency`,
while the claim (and the spec) prescribe the ratio
`total_data_scheduled / Σ data_mb over all input demands`. -/
theorem C9_efficiency_unreachable :
    solvesB modelC1 [true] = true ∧
    OptimalSolution modelC1 [true] ∧
    poolC1 ≠ [] ∧
    solve_optimization_model_run poolC1 modelC1 [true] "OPTIMAL" =
      Except.error "TypeError: unhashable type: dict" :=
  ⟨by decide, optimal_of_optimalB (by decide), by decide, by rfl⟩

/-! ## C2 counterexample: fractional-second rise times -/

/-- C2 counterexample: with rise times 0.5 s and 2.1 s and two zero-volume
demands, the selection `selC2` is an optimal solution (the CP model's
truncated integer intervals `[0,2)` and `[2,4)` do not overlap), yet the
extracted contacts occupy `[0.5, 2.5)` and `[2.1, 4.1)`, which intersect. -/
theorem C2_overlap_counterexample :
    solvesB modelC2 selC2 = true ∧
    OptimalSolution modelC2 selC2 ∧
    ((solve_optimization_model poolC2 modelC2 selC2 "OPTIMAL").scheduled_contacts.map
      (fun c => (c.start_time, c.end_time))) = [(1/2, 5/2), (21/10, 41/10)] ∧
    ¬ ivDisjoint (1/2) (5/2) (21/10) (41/10) := by
  refine ⟨by decide, optimal_of_optimalB (by decide), by decide, ?_⟩
  rw [ivDisjoint, Set.Ico_disjoint_Ico]
  norm_num

/-! ## C3 counterexample: the baseline ignores deadlines -/

/-- C3 counterexample: for one pass and one 100 MB demand whose deadline
precedes the pass, the deadline constraint forces every model variable
false, so `[false]` is the unique (hence optimal) solution with 0 MB
scheduled, while the baseline scheduler — which never reads deadlines —
schedules the demand and downlinks 100 MB: solver < baseline. -/
theorem C3_deadline_counterexample :
    OptimalSolution modelC3 [false] ∧
    ((create_baseline_schedule [pass600] [demandPastDeadline]).1.map
      (fun c => c.demand_mb)).sum = 100 ∧
    (solve_optimization_model poolC3 modelC3 [false] "OPTIMAL").total_data_scheduled = 0 ∧
    (0 : ℚ) < 100 :=
  ⟨optimal_of_optimalB (by decide), by decide, by decide, by norm_num⟩

/-! ## C10 counterexample: rounding can overshoot the pass window -/

/-- C10 counterexample: in `passC10` (duration exactly 10.0055 s) the
demand `demandC10` needs exactly 10.0055 s, so it is feasible, but the
stored duration is `round(10.0055, 2) = 10.01` s and the baseline contact
ends at 10.01 > 10.0055, strictly after the pass's set time. -/
theorem C10_overshoot_counterexample :
    ((create_baseline_schedule [passC10] [demandC10]).1.map
      (fun c => (c.end_time, c.src_pass.set_time))) = [(1001/100, 20011/2000)] ∧
    ¬ ((1001 : ℚ)/100 ≤ 20011/2000) := by
  refine ⟨by decide, by norm_num⟩

/-! ## C6: empty candidate pool short-circuits -/

/-- With no individually feasible (pass, demand) pair the candidate pool is
empty. -/
theorem preprocess_eq_nil {passes : List GroundPass} {demands : List DataDemand}
    (h : ∀ p ∈ passes, ∀ d ∈ demands, ∀ e, estimateDefault p d.data_mb = some e →
      e.is_feasible = false) :
    preprocess_scheduling_data passes demands = [] := by
  rw [preprocess_scheduling_data, List.flatten_eq_nil_iff]
  intro l hl
  rw [List.mem_map] at hl
  obtain ⟨pi, hpi, rfl⟩ := hl
  rw [List.filterMap_eq_nil]
  intro di hdi
  have hp : pi.2 ∈ passes := by
    have := List.mem_enum_iff_get?.mp hpi
    exact List.get?_mem this
  have hd : di.2 ∈ demands := by
    have := List.mem_enum_iff_get?.mp hdi
    exact List.get?_mem this
  cases he : estimateDefault pi.2 di.2.data_mb with
  | none => rfl
  | some e => simp [h pi.2 hp di.2 hd e he]

/-- C6: whenever no (pass, demand) pair is individually feasible,
`create_advanced_schedule` short-circuits — for every external solver it
returns, without consulting it, the well-formed degenerate result with
status `NO_FEASIBLE_ASSIGNMENTS`, the full input demand list unscheduled,
no contacts, and all metrics zero.  Empty pass or demand lists satisfy the
hypothesis vacuously. -/
theorem C6_no_feasible_short_circuit (passes : List GroundPass) (demands : List DataDemand)
    (h : ∀ p ∈ passes, ∀ d ∈ demands, ∀ e, estimateDefault p d.data_mb = some e →
      e.is_feasible = false) :
    ∀ (solver : CpModel → List Bool × String) (objective : OptimizationObjective)
      (cs : List SchedulingConstraint),
      create_advanced_schedule solver passes demands objective cs =
        { scheduled_contacts := []
          unscheduled_demands := demands
          optimization_status := "NO_FEASIBLE_ASSIGNMENTS"
          objective_value := 0
          total_data_scheduled := 0
          schedule_efficiency := 0
          resource_utilization := 0
          solution_quality := "INFEASIBLE" } := by
  intro solver objective cs
  rw [create_advanced_schedule]
  rw [preprocess_eq_nil h]
  rfl

/-- C6 witness: the empty pass list with one demand produces the degenerate
result for a concrete solver. -/
theorem C6_no_feasible_short_circuit_witness :
    create_advanced_schedule solverStub [] [demandOk] .MAXIMIZE_DATA_THROUGHPUT [] =
      { scheduled_contacts := []
        unscheduled_demands := [demandOk]
        optimization_status := "NO_FEASIBLE_ASSIGNMENTS"
        objective_value := 0
        total_data_scheduled := 0
        schedule_efficiency := 0
        resource_utilization := 0
        solution_quality := "INFEASIBLE" } :=
  C6_no_feasible_short_circuit [] [demandOk] (by simp) solverStub .MAXIMIZE_DATA_THROUGHPUT []

/-! ## C5: the minimum-gap constraint is a no-op -/

/-- Inserting a minimum-gap constraint anywhere in the constraint list
leaves the built CP-SAT model unchanged. -/
theorem create_cp_sat_model_minimum_gap (pool : List FeasibleAssignment)
    (objective : OptimizationObjective) (cs₁ cs₂ : List SchedulingConstraint)
    (g : SchedulingConstraint) (hg : g.constraint_type = "minimum_gap") :
    create_cp_sat_model pool objective (cs₁ ++ g :: cs₂) =
      create_cp_sat_model pool objective (cs₁ ++ cs₂) := by
  have hcustom : customConstraintsFor pool g = [] := by
    rw [customConstraintsFor, if_pos hg]
  simp [create_cp_sat_model, hcustom]

/-- C5: a constraint list containing a `minimum_gap` `SchedulingConstraint`
yields exactly the same model — and, for every solver, the same result of
`create_advanced_schedule` on the same inputs — as the list without it: the
kind is accepted and its `gap_seconds` parameter read, but no constraint is
added (enforcement is a no-op). -/
theorem C5_minimum_gap_noop (objective : OptimizationObjective)
    (cs₁ cs₂ : List SchedulingConstraint) (g : SchedulingConstraint)
    (hg : g.constraint_type = "minimum_gap") :
    (∀ pool : List FeasibleAssignment,
      create_cp_sat_model pool objective (cs₁ ++ g :: cs₂) =
        create_cp_sat_model pool objective (cs₁ ++ cs₂)) ∧
    (∀ (solver : CpModel → List Bool × String) (passes : List GroundPass)
      (demands : List DataDemand),
      create_advanced_schedule solver passes demands objective (cs₁ ++ g :: cs₂) =
        create_advanced_schedule solver passes demands objective (cs₁ ++ cs₂)) := by
  refine ⟨fun pool => create_cp_sat_model_minimum_gap pool objective cs₁ cs₂ g hg, ?_⟩
  intro solver passes demands
  rw [create_advanced_schedule, create_advanced_schedule,
    create_cp_sat_model_minimum_gap _ objective cs₁ cs₂ g hg]

/-- C5 witness: concrete instantiation with a gap constraint of 120 s. -/
theorem C5_minimum_gap_noop_witness :
    create_cp_sat_model poolC1 .MAXIMIZE_DATA_THROUGHPUT ([] ++ gMinGap :: []) =
      create_cp_sat_model poolC1 .MAXIMIZE_DATA_THROUGHPUT ([] ++ []) ∧
    create_advanced_schedule solverStub [pass600] [demandOk] .MAXIMIZE_DATA_THROUGHPUT
        ([] ++ gMinGap :: []) =
      create_advanced_schedule solverStub [pass600] [demandOk] .MAXIMIZE_DATA_THROUGHPUT
        ([] ++ []) :=
  ⟨(C5_minimum_gap_noop .MAXIMIZE_DATA_THROUGHPUT [] [] gMinGap rfl).1 poolC1,
   (C5_minimum_gap_noop .MAXIMIZE_DATA_THROUGHPUT [] [] gMinGap rfl).2 solverStub
     [pass600] [demandOk]⟩

/-! ## C4: deadline pruning -/

/-- Scheduled contacts of an extraction arise from selected pool entries. -/
theorem mem_extractContacts {pool : List FeasibleAssignment} {sel : List Bool}
    {c : ScheduledContact} (hc : c ∈ extractContacts pool sel) :
    ∃ i, (i, c.src_assignment) ∈ pool.enum ∧ selVar sel i = true ∧
      c = contactOfAssignment c.src_assignment := by
  rw [extractContacts, List.mem_filterMap] at hc
  obtain ⟨ia, hia, hval⟩ := hc
  by_cases hs : selVar sel ia.1 = true
  · rw [if_pos hs] at hval
    obtain rfl : _ = c := Option.some_injective _ hval
    exact ⟨ia.1, hia, hs, rfl⟩
  · rw [if_neg hs] at hval
    exact absurd hval (by simp)

/-- C4: for every objective strategy and constraint list, in every solution
of the built model no scheduled contact's pass rise time is strictly after
its demand's deadline — the deadline constraints force such assignment
variables to false before search. -/
theorem C4_deadline_exclusion (passes : List GroundPass) (demands : List DataDemand)
    (objective : OptimizationObjective) (cs : List SchedulingConstraint)
    (sel : List Bool) (status : String)
    (hs : solvesB (create_cp_sat_model (preprocess_scheduling_data passes demands)
      objective cs) sel = true) :
    ∀ c ∈ (solve_optimization_model (preprocess_scheduling_data passes demands)
        (create_cp_sat_model (preprocess_scheduling_data passes demands) objective cs)
        sel status).scheduled_contacts,
      ∀ dl, c.src_assignment.demand.deadline = some dl →
        c.src_assignment.pass_info.rise_time ≤ dl := by
  intro c hc dl hdl
  set pool := preprocess_scheduling_data passes demands with hpool
  have hc2 : c ∈ extractContacts pool sel := by
    rw [solve_optimization_model] at hc
    exact (mem_pySorted _ _ c).mp hc
  obtain ⟨i, hi, hsel, hceq⟩ := mem_extractContacts hc2
  by_contra hlt
  push_neg at hlt
  have hforce : MConstraint.forceFalse i ∈ deadlineConstraints pool := by
    rw [deadlineConstraints, List.mem_filterMap]
    refine ⟨(i, c.src_assignment), hi, ?_⟩
    rw [hdl]
    simp only [if_pos hlt]
  have hmem : MConstraint.forceFalse i ∈
      (create_cp_sat_model pool objective cs).constraints := by
    rw [create_cp_sat_model]
    simp only [List.mem_append]
    tauto
  rw [solvesB, Bool.and_eq_true, Bool.and_eq_true, List.all_eq_true] at hs
  have := hs.1.2 _ hmem
  rw [constraintHolds, Bool.not_eq_eq_eq_not, Bool.not_true] at this
  rw [this] at hsel
  exact Bool.false_ne_true hsel

/-- C4 witness: a demand with a future deadline scheduled by the solution
`[true]` satisfies the deadline bound. -/
theorem C4_deadline_exclusion_witness :
    solvesB (create_cp_sat_model
      (preprocess_scheduling_data [pass600] [demandDeadlineOk])
      .MAXIMIZE_DATA_THROUGHPUT []) [true] = true ∧
    ∀ c ∈ (solve_optimization_model (preprocess_scheduling_data [pass600] [demandDeadlineOk])
        (create_cp_sat_model (preprocess_scheduling_data [pass600] [demandDeadlineOk])
          .MAXIMIZE_DATA_THROUGHPUT []) [true] "OPTIMAL").scheduled_contacts,
      ∀ dl, c.src_assignment.demand.deadline = some dl →
        c.src_assignment.pass_info.rise_time ≤ dl :=
  ⟨by decide,
   C4_deadline_exclusion [pass600] [demandDeadlineOk] .MAXIMIZE_DATA_THROUGHPUT []
     [true] "OPTIMAL" (by decide)⟩

/-! ## Pool membership lemmas -/

theorem pyInt_intCast (k : ℤ) : pyInt ((k : ℚ)) = k := by
  rcases le_or_lt 0 k with h | h
  · rw [pyInt_of_nonneg (by exact_mod_cast h)]
    exact Int.floor_intCast k
  · have : ¬ (0 : ℚ) ≤ (k : ℚ) := by exact_mod_cast not_le.2 h
    rw [pyInt, if_neg this]
    rw [show (-(k:ℚ)) = ((-k : ℤ) : ℚ) by push_cast; ring, Int.floor_intCast]
    ring

/-- Every pool entry records a real (pass, demand) pair, by original index,
together with the feasible estimate that admitted it. -/
theorem pool_entry_spec {passes : List GroundPass} {demands : List DataDemand}
    {a : FeasibleAssignment} (ha : a ∈ preprocess_scheduling_data passes demands) :
    passes.get? a.pass_idx = some a.pass_info ∧
    demands.get? a.demand_idx = some a.demand ∧
    ∃ e, estimateDefault a.pass_info a.demand.data_mb = some e ∧
      e.is_feasible = true ∧
      a.duration_seconds = pyInt e.total_required_time_seconds ∧
      a.data_efficiency = e.data_efficiency ∧
      a.effective_data_rate = e.effective_data_rate_mbps ∧
      a.priority = a.demand.priority ∧
      a.deadline = a.demand.deadline := by
  rw [preprocess_scheduling_data, List.mem_flatten] at ha
  obtain ⟨l, hl, hal⟩ := ha
  rw [List.mem_map] at hl
  obtain ⟨pi, hpi, rfl⟩ := hl
  rw [List.mem_filterMap] at hal
  obtain ⟨di, hdi, hval⟩ := hal
  cases he : estimateDefault pi.2 di.2.data_mb with
  | none => rw [he] at hval; exact absurd hval (by simp)
  | some e =>
    rw [he] at hval
    dsimp only at hval
    by_cases hf : e.is_feasible = true
    · rw [if_pos hf] at hval
      obtain rfl : _ = a := Option.some_injective _ hval
      refine ⟨List.mem_enum_iff_get?.mp hpi, List.mem_enum_iff_get?.mp hdi, e, he, hf,
        rfl, rfl, rfl, rfl, rfl⟩
    · rw [if_neg (by simpa using hf)] at hval
      exact absurd hval (by simp)

/-- Conversely, every feasible (pass, demand) index pair produces a pool
entry. -/
theorem pool_entry_exists {passes : List GroundPass} {demands : List DataDemand}
    {pIdx dIdx : ℕ} {P : GroundPass} {D : DataDemand} {e : TransferEstimate}
    (hp : passes.get? pIdx = some P) (hd : demands.get? dIdx = some D)
    (he : estimateDefault P D.data_mb = some e) (hf : e.is_feasible = true) :
    { pass_idx := pIdx
      demand_idx := dIdx
      pass_info := P
      demand := D
      duration_seconds := pyInt e.total_required_time_seconds
      data_efficiency := e.data_efficiency
      pass_utilization := e.pass_utilization
      effective_data_rate := e.effective_data_rate_mbps
      priority := D.priority
      deadline := D.deadline } ∈ preprocess_scheduling_data passes demands := by
  rw [preprocess_scheduling_data, List.mem_flatten]
  refine ⟨_, List.mem_map.2 ⟨(pIdx, P), List.mem_enum_iff_get?.mpr hp, rfl⟩, ?_⟩
  rw [List.mem_filterMap]
  refine ⟨(dIdx, D), List.mem_enum_iff_get?.mpr hd, ?_⟩
  rw [he]
  dsimp only
  rw [if_pos hf]

/-- With no deadlines among the demands, no deadline constraint is
generated. -/
theorem deadlineConstraints_nil {passes : List GroundPass} {demands : List DataDemand}
    (hdl : ∀ d ∈ demands, d.deadline = none) :
    deadlineConstraints (preprocess_scheduling_data passes demands) = [] := by
  rw [deadlineConstraints, List.filterMap_eq_nil_iff]
  intro ia hia
  have ha : ia.2 ∈ preprocess_scheduling_data passes demands :=
    List.get?_mem (List.mem_enum_iff_get?.mp hia)
  obtain ⟨_, hd, _⟩ := pool_entry_spec ha
  have : ia.2.demand.deadline = none := hdl _ (List.get?_mem hd)
  simp [this]


/-! ## Baseline loop invariants -/

theorem RevChained_mono {l : List BaselineContact} {b b' : ℚ} (h : b ≤ b') :
    RevChained l (some b) → RevChained l (some b') := by
  cases l with
  | nil => intro _; trivial
  | cons c rest =>
    rintro ⟨h1, h2⟩
    refine ⟨fun x hx => ?_, h2⟩
    cases hx
    exact (h1 b rfl).trans h

theorem RevChained_none {l : List BaselineContact} {busy : Option ℚ} :
    RevChained l busy → RevChained l none := by
  cases l with
  | nil => intro _; trivial
  | cons c rest =>
    rintro ⟨_, h2⟩
    refine ⟨fun x hx => ?_, h2⟩
    cases hx

theorem RevChained_le {l : List BaselineContact} {b : ℚ}
    (hse : ∀ c ∈ l, c.start_time ≤ c.end_time) :
    RevChained l (some b) → ∀ c ∈ l, c.end_time ≤ b := by
  induction l generalizing b with
  | nil => intro _ c hc; cases hc
  | cons c rest ih =>
    rintro ⟨h1, h2⟩ x hx
    rcases List.mem_cons.mp hx with rfl | hx
    · exact h1 b rfl
    · have hxe := ih (fun y hy => hse y (List.mem_cons_of_mem c hy)) h2 x hx
      have hcs : c.start_time ≤ c.end_time := hse c (List.mem_cons_self c rest)
      exact hxe.trans (hcs.trans (h1 b rfl))

theorem RevChained_pairwise {l : List BaselineContact} {busy : Option ℚ}
    (hse : ∀ c ∈ l, c.start_time ≤ c.end_time) (h : RevChained l busy) :
    l.Pairwise (fun newer older => older.end_time ≤ newer.start_time) := by
  induction l generalizing busy with
  | nil => exact List.Pairwise.nil
  | cons c rest ih =>
    obtain ⟨_, h2⟩ := h
    exact List.Pairwise.cons
      (fun older holder =>
        RevChained_le (fun y hy => hse y (List.mem_cons_of_mem c hy)) h2 older holder)
      (ih (fun y hy => hse y (List.mem_cons_of_mem c hy)) h2)

/-- The inner scan returns the first feasible demand: it removes exactly
that element from the queue. -/
theorem findFeasibleDemand_eq {p : GroundPass} :
    ∀ {queue : List (ℕ × DataDemand)} {jd : ℕ × DataDemand} {est : TransferEstimate}
      {queue2 : List (ℕ × DataDemand)},
      findFeasibleDemand p queue = some (jd, est, queue2) →
      estimateDefault p jd.2.data_mb = some est ∧ est.is_feasible = true ∧
        ∃ l₁ l₂, queue = l₁ ++ jd :: l₂ ∧ queue2 = l₁ ++ l₂ := by
  intro queue
  induction queue with
  | nil => intro jd est q2 h; exact absurd h (by rw [findFeasibleDemand]; simp)
  | cons d rest ih =>
    intro jd est q2 h
    rw [findFeasibleDemand] at h
    cases he : estimateDefault p d.2.data_mb with
    | some e =>
      rw [he] at h
      dsimp only at h
      by_cases hf : e.is_feasible = true
      · rw [if_pos hf] at h
        simp only [Option.some.injEq, Prod.mk.injEq] at h
        obtain ⟨rfl, rfl, rfl⟩ := h
        exact ⟨he, hf, [], rest, rfl, rfl⟩
      · rw [if_neg hf] at h
        cases hr : findFeasibleDemand p rest with
        | none => rw [hr] at h; exact absurd h (by simp)
        | some y =>
          rw [hr] at h
          dsimp only at h
          simp only [Option.some.injEq, Prod.mk.injEq] at h
          obtain ⟨h1, h2, h3⟩ := h
          obtain ⟨he2, hf2, l₁, l₂, hq, hq2e⟩ :=
            ih (show findFeasibleDemand p rest = some (y.1, y.2.1, y.2.2) by rw [hr])
          subst h1 h2
          exact ⟨he2, hf2, d :: l₁, l₂, by rw [hq]; simp, by rw [← h3, hq2e]; simp⟩
    | none =>
      rw [he] at h
      dsimp only at h
      cases hr : findFeasibleDemand p rest with
      | none => rw [hr] at h; exact absurd h (by simp)
      | some y =>
        rw [hr] at h
        dsimp only at h
        simp only [Option.some.injEq, Prod.mk.injEq] at h
        obtain ⟨h1, h2, h3⟩ := h
        obtain ⟨he2, hf2, l₁, l₂, hq, hq2e⟩ :=
          ih (show findFeasibleDemand p rest = some (y.1, y.2.1, y.2.2) by rw [hr])
        subst h1 h2
        exact ⟨he2, hf2, d :: l₁, l₂, by rw [hq]; simp, by rw [← h3, hq2e]; simp⟩

/-- Master invariant of the baseline pass loop: every produced contact has
real provenance, contacts consume pairwise-distinct demand indices, the
contact intervals are chronologically chained, and the remaining queue
still consists of real demands. -/
theorem baselineLoop_invariant (passes : List GroundPass) (demands : List DataDemand) :
    ∀ (ps : List (ℕ × GroundPass)) (busy : Option ℚ) (queue : List (ℕ × DataDemand))
      (acc : List BaselineContact),
      (∀ kp ∈ ps, passes.get? kp.1 = some kp.2) →
      (∀ jd ∈ queue, demands.get? jd.1 = some jd.2) →
      (queue.map Prod.fst).Nodup →
      (∀ c ∈ acc, BaselineProv passes demands c) →
      (acc.map (fun c => c.demand_idx)).Nodup →
      (∀ c ∈ acc, ∀ jd ∈ queue, c.demand_idx ≠ jd.1) →
      RevChained acc busy →
      (busy = none → acc = []) →
      (∀ c ∈ (baselineLoop ps busy queue acc).1, BaselineProv passes demands c) ∧
      ((baselineLoop ps busy queue acc).1.map (fun c => c.demand_idx)).Nodup ∧
      RevChained (baselineLoop ps busy queue acc).1.reverse none ∧
      (∀ jd ∈ (baselineLoop ps busy queue acc).2, demands.get? jd.1 = some jd.2) := by
  intro ps
  induction ps with
  | nil =>
    intro busy queue acc _ hq _ hprov hnd _ hch _
    rw [baselineLoop]
    refine ⟨fun c hc => hprov c (List.mem_reverse.mp hc), ?_, ?_, hq⟩
    · rw [List.map_reverse]
      exact List.nodup_reverse.mpr hnd
    · rw [List.reverse_reverse]
      exact RevChained_none hch
  | cons kp ps ih =>
    intro busy queue acc hps hq hqnd hprov hnd hdisj hch h0
    have hps2 : ∀ x ∈ ps, passes.get? x.1 = some x.2 :=
      fun x hx => hps x (List.mem_cons_of_mem kp hx)
    rw [baselineLoop]
    by_cases hqe : queue.isEmpty
    · rw [if_pos hqe]
      refine ⟨fun c hc => hprov c (List.mem_reverse.mp hc), ?_, ?_, hq⟩
      · rw [List.map_reverse]
        exact List.nodup_reverse.mpr hnd
      · rw [List.reverse_reverse]
        exact RevChained_none hch
    · rw [if_neg hqe]
      by_cases hbusy : busy.all (fun b => kp.2.rise_time ≥ b) = true
      · rw [if_pos hbusy]
        cases hfind : findFeasibleDemand kp.2 queue with
        | none =>
          exact ih busy queue acc hps2 hq hqnd hprov hnd hdisj hch h0
        | some r =>
          obtain ⟨⟨j, d⟩, est, queue2⟩ := r
          dsimp only
          obtain ⟨he, hf, l₁, l₂, hqdec, hq2⟩ := findFeasibleDemand_eq hfind
          have hjq : (j, d) ∈ queue := by
            rw [hqdec]; exact List.mem_append_right l₁ (List.mem_cons_self _ _)
          have hmid : j ∉ (l₁.map Prod.fst ++ l₂.map Prod.fst) ∧
              (l₁.map Prod.fst ++ l₂.map Prod.fst).Nodup := by
            have h5 := hqnd
            rw [hqdec, List.map_append, List.map_cons] at h5
            exact List.nodup_cons.mp (List.nodup_middle.mp h5)
          have hq2fst : queue2.map Prod.fst = l₁.map Prod.fst ++ l₂.map Prod.fst := by
            rw [hq2, List.map_append]
          have hsubq : ∀ jd ∈ queue2, jd ∈ queue := by
            intro jd hjd
            rw [hq2, List.mem_append] at hjd
            rw [hqdec, List.mem_append]
            rcases hjd with h | h
            · exact Or.inl h
            · exact Or.inr (List.mem_cons_of_mem _ h)
          apply ih
          · exact hps2
          · exact fun jd hjd => hq jd (hsubq jd hjd)
          · rw [hq2fst]; exact hmid.2
          · intro c hc
            rcases List.mem_cons.mp hc with rfl | hc
            · exact ⟨hps kp (List.mem_cons_self _ _), hq (j, d) hjq, he, hf, rfl, rfl, rfl⟩
            · exact hprov c hc
          · rw [List.map_cons]
            refine List.nodup_cons.mpr ⟨?_, hnd⟩
            intro hmem
            obtain ⟨c, hc, hcj⟩ := List.mem_map.mp hmem
            exact hdisj c hc (j, d) hjq hcj
          · intro c hc jd hjd
            rcases List.mem_cons.mp hc with rfl | hc
            · show j ≠ jd.1
              intro hje
              apply hmid.1
              rw [← hq2fst, hje]
              exact List.mem_map_of_mem Prod.fst hjd
            · exact hdisj c hc jd (hsubq jd hjd)
          · refine ⟨fun x hx => ?_, ?_⟩
            · cases hx; exact le_refl _
            · show RevChained acc (some kp.2.rise_time)
              cases hb : busy with
              | none => rw [h0 hb]; trivial
              | some b =>
                rw [hb] at hbusy hch
                simp only [Option.all, decide_eq_true_eq, ge_iff_le] at hbusy
                exact RevChained_mono hbusy hch
          · intro h; cases h
      · rw [if_neg hbusy]
        exact ih busy queue acc hps2 hq hqnd hprov hnd hdisj hch h0

/-- Specification of the baseline scheduler output: provenance, distinct
demand indices, and chronological chaining. -/
theorem baseline_schedule_spec (passes : List GroundPass) (demands : List DataDemand) :
    (∀ c ∈ (create_baseline_schedule passes demands).1, BaselineProv passes demands c) ∧
    ((create_baseline_schedule passes demands).1.map (fun c => c.demand_idx)).Nodup ∧
    RevChained (create_baseline_schedule passes demands).1.reverse none := by
  rw [create_baseline_schedule]
  obtain ⟨h1, h2, h3, _⟩ := baselineLoop_invariant passes demands
    (pySorted (fun a b => decide (a.2.rise_time ≤ b.2.rise_time)) passes.enum)
    none demands.enum []
    (fun kp hkp => List.mem_enum_iff_get?.mp ((mem_pySorted _ _ kp).mp hkp))
    (fun jd hjd => List.mem_enum_iff_get?.mp hjd)
    (by rw [List.enum_map_fst]; exact List.nodup_range _)
    (fun c hc => absurd hc (List.not_mem_nil c))
    (by simp)
    (fun c hc => absurd hc (List.not_mem_nil c))
    trivial
    (fun _ => rfl)
  exact ⟨h1, h2, h3⟩

/-- Any estimate of a nonnegative demand needs at least (a rounding away
from) the 2-second handshake. -/
theorem est_total_lb {p : GroundPass} {mb : ℚ} {e : TransferEstimate}
    (he : estimateDefault p mb = some e) (hmb : 0 ≤ mb) :
    399/200 ≤ e.total_required_time_seconds := by
  rw [total_required_eq he]
  have h1 := sub_le_pyRound (reqTime mb) 2
  have h2 := reqTime_ge_two hmb
  norm_num at h1 ⊢
  linarith

/-- Nonnegative demands give contacts of nonnegative length. -/
theorem prov_start_le_end {passes : List GroundPass} {demands : List DataDemand}
    {c : BaselineContact} (hp : BaselineProv passes demands c)
    (hmb : ∀ d ∈ demands, 0 ≤ d.data_mb) : c.start_time ≤ c.end_time := by
  obtain ⟨_, hd, he, _, _, hend, _⟩ := hp
  have hd0 : 0 ≤ c.src_demand.data_mb := hmb _ (List.get?_mem hd)
  have := est_total_lb he hd0
  rw [hend]
  linarith

/-! ## C10 (amended): contacts end by the pass set time, up to rounding -/

/-- C10 (amended): whenever an estimate is feasible the unrounded required
time is at most the pass duration, and every scheduled contact — in the
baseline scheduler's output and in any extraction of the solver's — ends no
later than 0.005 s after its pass's set time: the stored duration is the
required time rounded to two decimals (further truncated to an integer in
the solver), and rounding half-up can exceed the exact value by at most
1/200 s. -/
theorem C10_contact_end_bound :
    (∀ (passes : List GroundPass) (demands : List DataDemand),
      ∀ c ∈ (create_baseline_schedule passes demands).1,
        c.end_time ≤ c.src_pass.set_time + 1/200) ∧
    (∀ (passes : List GroundPass) (demands : List DataDemand),
      (∀ d ∈ demands, 0 ≤ d.data_mb) →
      ∀ (sel : List Bool),
        ∀ c ∈ extractContacts (preprocess_scheduling_data passes demands) sel,
          c.end_time ≤ c.src_assignment.pass_info.set_time + 1/200) := by
  constructor
  · intro passes demands c hc
    obtain ⟨hprov, _, _⟩ := baseline_schedule_spec passes demands
    obtain ⟨_, _, he, hf, hstart, hend, _⟩ := hprov c hc
    have h1 := feasible_required_le he hf
    rw [hend, hstart]
    linarith
  · intro passes demands hmb sel c hc
    obtain ⟨i, hi, _, hceq⟩ := mem_extractContacts hc
    have ha : c.src_assignment ∈ preprocess_scheduling_data passes demands :=
      List.get?_mem (List.mem_enum_iff_get?.mp hi)
    obtain ⟨_, hd, e, he, hf, hdur, _⟩ := pool_entry_spec ha
    have hd0 : 0 ≤ c.src_assignment.demand.data_mb := hmb _ (List.get?_mem hd)
    have hlb := est_total_lb he hd0
    have h1 := feasible_required_le he hf
    have h2 : (c.src_assignment.duration_seconds : ℚ) ≤ e.total_required_time_seconds := by
      rw [hdur]
      exact pyInt_le (by linarith)
    have h3 : c.end_time =
        c.src_assignment.pass_info.rise_time + (c.src_assignment.duration_seconds : ℚ) := by
      rw [hceq]; rfl
    rw [h3]
    linarith

/-- C10 witness: concrete instantiation of both bounds. -/
theorem C10_contact_end_bound_witness :
    (∀ c ∈ (create_baseline_schedule [pass600] [demandOk]).1,
      c.end_time ≤ c.src_pass.set_time + 1/200) ∧
    (∀ c ∈ extractContacts (preprocess_scheduling_data [pass600] [demandOk]) [true],
      c.end_time ≤ c.src_assignment.pass_info.set_time + 1/200) :=
  ⟨C10_contact_end_bound.1 [pass600] [demandOk],
   C10_contact_end_bound.2 [pass600] [demandOk] (by decide) [true]⟩

/-! ## C2 (amended): the no-overlap invariant -/

/-- Selected pool entries of nonnegative demands occupy at least one whole
second. -/
theorem pool_duration_pos {passes : List GroundPass} {demands : List DataDemand}
    {a : FeasibleAssignment} (ha : a ∈ preprocess_scheduling_data passes demands)
    (hmb : ∀ d ∈ demands, 0 ≤ d.data_mb) : 1 ≤ a.duration_seconds := by
  obtain ⟨_, hd, e, he, _, hdur, _⟩ := pool_entry_spec ha
  have hd0 : 0 ≤ a.demand.data_mb := hmb _ (List.get?_mem hd)
  have hlb := est_total_lb he hd0
  rw [hdur, pyInt_of_nonneg (by linarith)]
  rw [Int.le_floor]
  push_cast
  linarith

/-- The chronological order of the baseline contacts. -/
theorem baseline_chronological (passes : List GroundPass) (demands : List DataDemand)
    (hmb : ∀ d ∈ demands, 0 ≤ d.data_mb) :
    (create_baseline_schedule passes demands).1.Pairwise
      (fun c d => c.end_time ≤ d.start_time) := by
  obtain ⟨hprov, _, hch⟩ := baseline_schedule_spec passes demands
  have hse : ∀ c ∈ (create_baseline_schedule passes demands).1.reverse,
      c.start_time ≤ c.end_time := by
    intro c hc
    exact prov_start_le_end (hprov c (List.mem_reverse.mp hc)) hmb
  have hp := RevChained_pairwise hse hch
  rw [List.pairwise_reverse] at hp
  exact hp

/-- C2 (amended): all pairs of distinct scheduled contacts have disjoint
`[start, end)` intervals — unconditionally for the baseline scheduler (for
nonnegative demand sizes), and for every solution of the solver's model
provided the pass rise timestamps are whole seconds; with fractional-second
rise times the CP model's integer truncation can let real intervals overlap
by less than one second (see the counterexample). -/
theorem C2_no_overlap_invariant :
    (∀ (passes : List GroundPass) (demands : List DataDemand),
      (∀ d ∈ demands, 0 ≤ d.data_mb) →
      (create_baseline_schedule passes demands).1.Pairwise bContactsDisjoint) ∧
    (∀ (passes : List GroundPass) (demands : List DataDemand)
      (objective : OptimizationObjective) (cs : List SchedulingConstraint)
      (sel : List Bool) (status : String),
      (∀ d ∈ demands, 0 ≤ d.data_mb) →
      (∀ p ∈ passes, ∃ k : ℤ, p.rise_time = (k : ℚ)) →
      solvesB (create_cp_sat_model (preprocess_scheduling_data passes demands)
        objective cs) sel = true →
      (solve_optimization_model (preprocess_scheduling_data passes demands)
        (create_cp_sat_model (preprocess_scheduling_data passes demands) objective cs)
        sel status).scheduled_contacts.Pairwise contactsDisjoint) := by
  constructor
  · intro passes demands hmb
    refine (baseline_chronological passes demands hmb).imp ?_
    intro c d h
    rw [bContactsDisjoint, ivDisjoint, Set.Ico_disjoint_Ico]
    exact (min_le_left _ _).trans (h.trans (le_max_right _ _))
  · intro passes demands objective cs sel status hmb hrise hs
    set pool := preprocess_scheduling_data passes demands with hpool
    rw [solvesB, Bool.and_eq_true, Bool.and_eq_true] at hs
    have hno := hs.2
    rw [noOverlapHolds, pairwiseB_iff] at hno
    rw [create_cp_sat_model] at hno
    dsimp only at hno
    rw [modelIntervals, List.pairwise_map] at hno
    have hext : (extractContacts pool sel).Pairwise contactsDisjoint := by
      rw [extractContacts, List.pairwise_filterMap]
      refine hno.imp_of_mem ?_
      intro ia ja hia hja hcond c hcsome cc hccsome
      by_cases hsa : selVar sel ia.1 = true
      · by_cases hsb : selVar sel ja.1 = true
        · rw [if_pos hsa] at hcsome
          rw [if_pos hsb] at hccsome
          obtain rfl : contactOfAssignment ia.2 = c := by
            simpa using hcsome
          obtain rfl : contactOfAssignment ja.2 = cc := by
            simpa using hccsome
          have hamem : ia.2 ∈ pool := List.get?_mem (List.mem_enum_iff_get?.mp hia)
          have hbmem : ja.2 ∈ pool := List.get?_mem (List.mem_enum_iff_get?.mp hja)
          have hda := pool_duration_pos hamem hmb
          have hdb := pool_duration_pos hbmem hmb
          obtain ⟨hpa, _⟩ := pool_entry_spec hamem
          obtain ⟨hpb, _⟩ := pool_entry_spec hbmem
          obtain ⟨ka, hka⟩ := hrise _ (List.get?_mem hpa)
          obtain ⟨kb, hkb⟩ := hrise _ (List.get?_mem hpb)
          simp only [hsa, hsb, Bool.not_true, Bool.false_or, decide_eq_true_eq,
            Bool.or_eq_true] at hcond
          rcases hcond with (h | h) | h | h
          · exact absurd h (by omega)
          · exact absurd h (by omega)
          · have hdisj2 : ia.2.pass_info.rise_time + (ia.2.duration_seconds : ℚ) ≤
                ja.2.pass_info.rise_time := by
              rw [hka, hkb] at h ⊢
              rw [pyInt_intCast, pyInt_intCast] at h
              exact_mod_cast h
            rw [contactsDisjoint, ivDisjoint, Set.Ico_disjoint_Ico]
            refine (min_le_left _ _).trans (le_trans ?_ (le_max_right _ _))
            exact hdisj2
          · have hdisj2 : ja.2.pass_info.rise_time + (ja.2.duration_seconds : ℚ) ≤
                ia.2.pass_info.rise_time := by
              rw [hka, hkb] at h ⊢
              rw [pyInt_intCast, pyInt_intCast] at h
              exact_mod_cast h
            rw [contactsDisjoint, ivDisjoint, Set.Ico_disjoint_Ico]
            refine (min_le_right _ _).trans (le_trans ?_ (le_max_left _ _))
            exact hdisj2
        · rw [if_neg hsb] at hccsome
          exact absurd hccsome (by simp)
      · rw [if_neg hsa] at hcsome
        exact absurd hcsome (by simp)
    rw [solve_optimization_model]
    dsimp only
    have hperm := pySorted_perm
      (fun a b => decide (a.start_time ≤ b.start_time)) (extractContacts pool sel)
    have hsymm : Symmetric contactsDisjoint := by
      intro x y h
      rw [contactsDisjoint, ivDisjoint] at h ⊢
      exact h.symm
    exact (hperm.pairwise_iff (fun hxy => hsymm hxy)).mpr hext

/-! ## Selection and summation helpers for C3 -/

theorem indicator_length (n : ℕ) (S : List ℕ) : (indicator n S).length = n := by
  simp [indicator]

theorem selVar_indicator (n : ℕ) (S : List ℕ) (i : ℕ) :
    selVar (indicator n S) i = if i < n then decide (i ∈ S) else false := by
  rw [selVar, indicator, List.getD_eq_getD_get?, List.get?_map]
  by_cases h : i < n
  · rw [List.get?_range h, if_pos h]
    rfl
  · rw [List.get?_eq_none.mpr (by simpa using not_lt.mp h), if_neg h]
    rfl

theorem sum_map_add (l : List α) (f g : α → ℤ) :
    (l.map (fun x => f x + g x)).sum = (l.map f).sum + (l.map g).sum := by
  induction l with
  | nil => simp
  | cons x xs ih => simp only [List.map_cons, List.sum_cons, ih]; ring

theorem sum_enum_single (l : List ℤ) : ∀ i : ℕ,
    ((l.enum.map (fun ic => if ic.1 = i then ic.2 else 0)).sum) = l.getD i 0 := by
  induction l with
  | nil => intro i; simp
  | cons a l ih =>
    intro i
    rw [List.enum_cons']
    cases i with
    | zero =>
      simp only [List.map_cons, List.sum_cons, if_pos rfl, List.map_map]
      have hz : ((l.enum.map fun x => Prod.map (· + 1) id x).map
          (fun ic => if ic.1 = 0 then ic.2 else 0)).sum = 0 := by
        rw [List.map_map]
        apply List.sum_eq_zero
        intro x hx
        obtain ⟨ic, _, rfl⟩ := List.mem_map.mp hx
        simp [Prod.map]
      rw [List.map_map] at hz
      rw [hz]
      simp [List.getD]
    | succ j =>
      simp only [List.map_cons, List.sum_cons, List.map_map]
      have hcongr : (l.enum.map ((fun ic => if ic.1 = j + 1 then ic.2 else 0) ∘
          Prod.map (· + 1) id)) = l.enum.map (fun ic => if ic.1 = j then ic.2 else 0) := by
        apply List.map_congr_left
        intro ic _
        simp [Prod.map, Function.comp, Nat.succ_inj]
      rw [hcongr, ih j]
      simp [List.getD_cons_succ]

theorem sum_enum_indicator (l : List ℤ) : ∀ (S : List ℕ), S.Nodup →
    ((l.enum.map (fun ic => if ic.1 ∈ S then ic.2 else 0)).sum) =
      (S.map (fun i => l.getD i 0)).sum := by
  intro S
  induction S with
  | nil =>
    intro _
    rw [List.map_nil, List.sum_nil]
    apply List.sum_eq_zero
    intro x hx
    obtain ⟨ic, _, rfl⟩ := List.mem_map.mp hx
    simp
  | cons i S ih =>
    intro hnd
    rw [List.nodup_cons] at hnd
    have hsplit : l.enum.map (fun ic => if ic.1 ∈ i :: S then ic.2 else 0) =
        l.enum.map (fun ic => (if ic.1 = i then ic.2 else 0) +
          (if ic.1 ∈ S then ic.2 else 0)) := by
      apply List.map_congr_left
      intro ic _
      by_cases h1 : ic.1 = i
      · subst h1
        rw [if_pos (List.mem_cons_self _ _), if_pos rfl, if_neg hnd.1]
        ring
      · simp only [List.mem_cons]
        by_cases h2 : ic.1 ∈ S
        · rw [if_pos (Or.inr h2), if_pos h2, if_neg h1]
          ring
        · rw [if_neg (by tauto), if_neg h2, if_neg h1]
          ring
    rw [hsplit, sum_map_add, sum_enum_single, ih hnd.2, List.map_cons, List.sum_cons]

theorem int_cast_sum_map (l : List α) (f : α → ℤ) :
    (((l.map f).sum : ℤ) : ℚ) = (l.map (fun a => ((f a : ℤ) : ℚ))).sum := by
  induction l with
  | nil => simp
  | cons x xs ih => push_cast [List.map_cons, List.sum_cons, ih]; ring_nf

theorem pairwise_of_nodup_ne {R : α → α → Prop} {l : List α} (hnd : l.Nodup)
    (h : ∀ a ∈ l, ∀ b ∈ l, a ≠ b → R a b) : l.Pairwise R := by
  induction l with
  | nil => exact List.Pairwise.nil
  | cons x xs ih =>
    rw [List.nodup_cons] at hnd
    refine List.Pairwise.cons (fun b hb => ?_) (ih hnd.2 (fun a ha b hb hab =>
      h a (List.mem_cons_of_mem x ha) b (List.mem_cons_of_mem x hb) hab))
    refine h x (List.mem_cons_self _ _) b (List.mem_cons_of_mem x hb) ?_
    intro heq
    exact hnd.1 (heq ▸ hb)

/-- The pool entry found for a baseline contact: it exists, and its fields
agree with the contact's provenance. -/
theorem contactPoolIdx_spec {passes : List GroundPass} {demands : List DataDemand}
    {c : BaselineContact} (hp : BaselineProv passes demands c) :
    contactPoolIdx (preprocess_scheduling_data passes demands) c <
      (preprocess_scheduling_data passes demands).length ∧
    ∃ a, (preprocess_scheduling_data passes demands).get?
        (contactPoolIdx (preprocess_scheduling_data passes demands) c) = some a ∧
      a.pass_idx = c.pass_idx ∧ a.demand_idx = c.demand_idx ∧
      a.pass_info = c.src_pass ∧ a.demand = c.src_demand ∧
      a.duration_seconds = pyInt c.est.total_required_time_seconds := by
  obtain ⟨hpass, hdem, hest, hfeas, _, _, _⟩ := hp
  set pool := preprocess_scheduling_data passes demands with hpool
  have hexists : ∃ a ∈ pool,
      (a.pass_idx == c.pass_idx && a.demand_idx == c.demand_idx) = true := by
    refine ⟨_, pool_entry_exists hpass hdem hest hfeas, ?_⟩
    simp
  have hlt : pool.findIdx
      (fun a => a.pass_idx == c.pass_idx && a.demand_idx == c.demand_idx) < pool.length :=
    List.findIdx_lt_length_of_exists hexists
  refine ⟨hlt, ?_⟩
  have hpred : ((pool.get ⟨pool.findIdx
        (fun a => a.pass_idx == c.pass_idx && a.demand_idx == c.demand_idx), hlt⟩).pass_idx
      == c.pass_idx &&
      (pool.get ⟨pool.findIdx
        (fun a => a.pass_idx == c.pass_idx && a.demand_idx == c.demand_idx), hlt⟩).demand_idx
      == c.demand_idx) = true :=
    @List.findIdx_get _ (fun a => a.pass_idx == c.pass_idx && a.demand_idx == c.demand_idx)
      pool hlt
  have hget : pool.get? (contactPoolIdx pool c) = some (pool.get ⟨pool.findIdx
      (fun a => a.pass_idx == c.pass_idx && a.demand_idx == c.demand_idx), hlt⟩) :=
    List.get?_eq_get hlt
  generalize hag : pool.get ⟨pool.findIdx
      (fun a => a.pass_idx == c.pass_idx && a.demand_idx == c.demand_idx), hlt⟩ = a at hpred hget
  rw [Bool.and_eq_true, beq_iff_eq, beq_iff_eq] at hpred
  have hamem : a ∈ pool := List.get?_mem hget
  obtain ⟨hpa, hda, e, hee, _, hdur, _⟩ := pool_entry_spec hamem
  have hpinfo : a.pass_info = c.src_pass := by
    rw [hpred.1] at hpa
    exact Option.some_injective _ (hpa.symm.trans hpass)
  have hdinfo : a.demand = c.src_demand := by
    rw [hpred.2] at hda
    exact Option.some_injective _ (hda.symm.trans hdem)
  have hesame : e = c.est := by
    rw [hpinfo, hdinfo] at hee
    exact Option.some_injective _ (hee.symm.trans hest)
  exact ⟨a, hget, hpred.1, hpred.2, hpinfo, hdinfo, by rw [hdur, hesame]⟩

/-- Projection of the extraction total onto the selection-indicator sum. -/
theorem extract_total_eq_enum_sum (pool : List FeasibleAssignment) (sel : List Bool) :
    ((extractContacts pool sel).map (fun c => c.demand_mb)).sum =
      (pool.enum.map (fun ia =>
        if selVar sel ia.1 then ia.2.demand.data_mb else 0)).sum := by
  rw [extractContacts]
  induction pool.enum with
  | nil => simp
  | cons ia l ih =>
    rw [List.filterMap_cons, List.map_cons, List.sum_cons]
    by_cases h : selVar sel ia.1 = true
    · rw [if_pos h, if_pos h, List.map_cons, List.sum_cons, ih]
      rfl
    · rw [if_neg h, if_neg h, ih]
      ring

theorem enum_fst_nodup (l : List α) : (l.enum.map (fun ia => ia.1)).Nodup := by
  show (l.enum.map Prod.fst).Nodup
  rw [List.enum_map_fst]
  exact List.nodup_range _

/-- Separation of any two distinct baseline contacts in time. -/
theorem baseline_sep {passes : List GroundPass} {demands : List DataDemand}
    (hmb : ∀ d ∈ demands, 0 ≤ d.data_mb) :
    ∀ c₁ ∈ (create_baseline_schedule passes demands).1,
      ∀ c₂ ∈ (create_baseline_schedule passes demands).1, c₁ ≠ c₂ →
        c₁.end_time ≤ c₂.start_time ∨ c₂.end_time ≤ c₁.start_time := by
  have hchron := baseline_chronological passes demands hmb
  have hsym : (create_baseline_schedule passes demands).1.Pairwise
      (fun c d => c.end_time ≤ d.start_time ∨ d.end_time ≤ c.start_time) :=
    hchron.imp (fun h => Or.inl h)
  intro c₁ h1 c₂ h2 hne
  exact hsym.forall (fun x y hxy => hxy.symm.imp id id) h1 h2 hne

/-- The baseline-induced selection solves the CP-SAT model built on the
same inputs (no custom constraints, data-throughput objective), provided
demand sizes are nonnegative, no demand has a deadline, and pass rise
timestamps are nonnegative. -/
theorem baselineSel_solves (passes : List GroundPass) (demands : List DataDemand)
    (hmb : ∀ d ∈ demands, 0 ≤ d.data_mb)
    (hdl : ∀ d ∈ demands, d.deadline = none)
    (hrise : ∀ p ∈ passes, 0 ≤ p.rise_time) :
    solvesB (create_cp_sat_model (preprocess_scheduling_data passes demands)
        .MAXIMIZE_DATA_THROUGHPUT [])
      (baselineSel (preprocess_scheduling_data passes demands)
        (create_baseline_schedule passes demands).1) = true := by
  set pool := preprocess_scheduling_data passes demands with hpool
  set contacts := (create_baseline_schedule passes demands).1 with hcontacts
  set S := contacts.map (contactPoolIdx pool) with hS
  obtain ⟨hprov, hnd, _⟩ := baseline_schedule_spec passes demands
  have hcnd : contacts.Nodup := hnd.of_map
  have hinj : ∀ x ∈ contacts, ∀ y ∈ contacts,
      contactPoolIdx pool x = contactPoolIdx pool y → x = y := by
    intro x hx y hy hxy
    obtain ⟨_, ax, hgx, _, hdx, _⟩ := contactPoolIdx_spec (hprov x hx)
    obtain ⟨_, ay, hgy, _, hdy, _⟩ := contactPoolIdx_spec (hprov y hy)
    rw [hxy] at hgx
    obtain rfl : ax = ay := Option.some_injective _ (hgx.symm.trans hgy)
    exact List.inj_on_of_nodup_map hnd hx hy (hdx.symm.trans hdy)
  have hmemS : ∀ {i : ℕ}, i ∈ S → ∃ c ∈ contacts, contactPoolIdx pool c = i := by
    intro i hi
    obtain ⟨c, hc, rfl⟩ := List.mem_map.mp hi
    exact ⟨c, hc, rfl⟩
  have hselS : ∀ {i : ℕ}, selVar (baselineSel pool contacts) i = true →
      ∃ c ∈ contacts, contactPoolIdx pool c = i := by
    intro i hi
    rw [baselineSel, selVar_indicator] at hi
    by_cases h : i < pool.length
    · rw [if_pos h] at hi
      exact hmemS (of_decide_eq_true hi)
    · rw [if_neg h] at hi
      exact absurd hi (by simp)
  rw [solvesB, Bool.and_eq_true, Bool.and_eq_true]
  refine ⟨⟨?_, ?_⟩, ?_⟩
  · rw [baselineSel, indicator_length]
    simp [create_cp_sat_model]
  · rw [List.all_eq_true]
    intro cst hcst
    rw [create_cp_sat_model] at hcst
    dsimp only at hcst
    rw [deadlineConstraints_nil hdl] at hcst
    simp only [List.map_nil, List.flatten_nil, List.append_nil] at hcst
    rw [atMostOneConstraints, List.mem_map] at hcst
    obtain ⟨d, _, rfl⟩ := hcst
    rw [constraintHolds]
    rw [decide_eq_true_eq]
    apply countP_le_one_of_unique
    · have hsub : ((pool.enum.filter (fun ia => ia.2.demand_idx = d)).map (fun ia => ia.1)).Sublist
          (pool.enum.map (fun ia => ia.1)) :=
        (List.filter_sublist pool.enum).map _
      exact hsub.nodup (enum_fst_nodup pool)
    · intro i hi j hj hpi hpj
      obtain ⟨ia, hiaf, rfl⟩ := List.mem_map.mp hi
      obtain ⟨ja, hjaf, rfl⟩ := List.mem_map.mp hj
      rw [List.mem_filter] at hiaf hjaf
      obtain ⟨c₁, hc1, hidx1⟩ := hselS hpi
      obtain ⟨c₂, hc2, hidx2⟩ := hselS hpj
      obtain ⟨_, a1, hg1, _, hdi1, _⟩ := contactPoolIdx_spec (hprov c₁ hc1)
      obtain ⟨_, a2, hg2, _, hdi2, _⟩ := contactPoolIdx_spec (hprov c₂ hc2)
      rw [hidx1] at hg1
      rw [hidx2] at hg2
      have ha1 : a1 = ia.2 :=
        Option.some_injective _ (hg1.symm.trans (List.mem_enum_iff_get?.mp hiaf.1))
      have ha2 : a2 = ja.2 :=
        Option.some_injective _ (hg2.symm.trans (List.mem_enum_iff_get?.mp hjaf.1))
      have hd1 : c₁.demand_idx = d := by
        rw [← hdi1, ha1]
        exact of_decide_eq_true hiaf.2
      have hd2 : c₂.demand_idx = d := by
        rw [← hdi2, ha2]
        exact of_decide_eq_true hjaf.2
      have : c₁ = c₂ := List.inj_on_of_nodup_map hnd hc1 hc2 (hd1.trans hd2.symm)
      rw [← hidx1, ← hidx2, this]
  · rw [create_cp_sat_model]
    dsimp only
    rw [noOverlapHolds, pairwiseB_iff, modelIntervals, List.pairwise_map]
    apply pairwise_of_nodup_ne (List.Nodup.of_map _ (enum_fst_nodup pool))
    intro ia hia ja hja hne
    by_cases hsa : selVar (baselineSel pool contacts) ia.1 = true
    · by_cases hsb : selVar (baselineSel pool contacts) ja.1 = true
      · obtain ⟨c₁, hc1, hidx1⟩ := hselS hsa
        obtain ⟨c₂, hc2, hidx2⟩ := hselS hsb
        obtain ⟨_, a1, hg1, _, _, hp1, hdm1, hdur1⟩ := contactPoolIdx_spec (hprov c₁ hc1)
        obtain ⟨_, a2, hg2, _, _, hp2, hdm2, hdur2⟩ := contactPoolIdx_spec (hprov c₂ hc2)
        rw [hidx1] at hg1
        rw [hidx2] at hg2
        have ha1 : a1 = ia.2 :=
          Option.some_injective _ (hg1.symm.trans (List.mem_enum_iff_get?.mp hia))
        have ha2 : a2 = ja.2 :=
          Option.some_injective _ (hg2.symm.trans (List.mem_enum_iff_get?.mp hja))
        have hcne : c₁ ≠ c₂ := by
          intro heq
          apply hne
          have hfst : ia.1 = ja.1 := by rw [← hidx1, ← hidx2, heq]
          exact List.inj_on_of_nodup_map (enum_fst_nodup pool) hia hja hfst
        obtain ⟨hpass1, hdem1, hest1, hfeas1, hst1, hen1, _⟩ := hprov c₁ hc1
        obtain ⟨hpass2, hdem2, hest2, hfeas2, hst2, hen2, _⟩ := hprov c₂ hc2
        have hr1 : 0 ≤ c₁.src_pass.rise_time := hrise _ (List.get?_mem hpass1)
        have hr2 : 0 ≤ c₂.src_pass.rise_time := hrise _ (List.get?_mem hpass2)
        have ht1 : (399:ℚ)/200 ≤ c₁.est.total_required_time_seconds :=
          est_total_lb hest1 (hmb _ (List.get?_mem hdem1))
        have ht2 : (399:ℚ)/200 ≤ c₂.est.total_required_time_seconds :=
          est_total_lb hest2 (hmb _ (List.get?_mem hdem2))
        have hint1 : ia.2.pass_info.rise_time = c₁.src_pass.rise_time := by rw [← ha1, hp1]
        have hint2 : ja.2.pass_info.rise_time = c₂.src_pass.rise_time := by rw [← ha2, hp2]
        have hdur1e : ia.2.duration_seconds = pyInt c₁.est.total_required_time_seconds := by
          rw [← ha1, hdur1]
        have hdur2e : ja.2.duration_seconds = pyInt c₂.est.total_required_time_seconds := by
          rw [← ha2, hdur2]
        have key : ∀ (cx cy : BaselineContact), 0 ≤ cx.src_pass.rise_time →
            0 ≤ cy.src_pass.rise_time →
            (399:ℚ)/200 ≤ cx.est.total_required_time_seconds →
            cx.start_time = cx.src_pass.rise_time →
            cx.end_time = cx.start_time + cx.est.total_required_time_seconds →
            cy.start_time = cy.src_pass.rise_time →
            cx.end_time ≤ cy.start_time →
            pyInt cx.src_pass.rise_time + pyInt cx.est.total_required_time_seconds ≤
              pyInt cy.src_pass.rise_time := by
          intro cx cy hrx hry htx hsx hex hsy hle
          rw [pyInt_of_nonneg hrx, pyInt_of_nonneg (by linarith), pyInt_of_nonneg hry]
          have h1 : (⌊cx.src_pass.rise_time⌋ + ⌊cx.est.total_required_time_seconds⌋ : ℤ) ≤
              ⌊cx.src_pass.rise_time + cx.est.total_required_time_seconds⌋ := by
            rw [Int.le_floor]
            push_cast
            have := Int.floor_le cx.src_pass.rise_time
            have := Int.floor_le cx.est.total_required_time_seconds
            linarith
          refine h1.trans (Int.floor_mono ?_)
          rw [← hsx, ← hex]
          rw [hsy] at hle
          exact hle
        rcases baseline_sep hmb c₁ hc1 c₂ hc2 hcne with hsep | hsep
        · have := key c₁ c₂ hr1 hr2 ht1 hst1 hen1 hst2 hsep
          simp only [hsa, hsb, Bool.not_true, Bool.false_or, Bool.or_eq_true,
            decide_eq_true_eq]
          refine Or.inr (Or.inl ?_)
          rw [hint1, hint2, hdur1e]
          exact this
        · have := key c₂ c₁ hr2 hr1 ht2 hst2 hen2 hst1 hsep
          simp only [hsa, hsb, Bool.not_true, Bool.false_or, Bool.or_eq_true,
            decide_eq_true_eq]
          refine Or.inr (Or.inr ?_)
          rw [hint1, hint2, hdur2e]
          exact this
      · simp [hsb]
    · simp [hsa]

theorem baseline_S_nodup (passes : List GroundPass) (demands : List DataDemand) :
    ((create_baseline_schedule passes demands).1.map
      (contactPoolIdx (preprocess_scheduling_data passes demands))).Nodup := by
  obtain ⟨hprov, hnd, _⟩ := baseline_schedule_spec passes demands
  refine List.Nodup.map_on ?_ hnd.of_map
  intro x hx y hy hxy
  obtain ⟨_, ax, hgx, _, hdx, _⟩ := contactPoolIdx_spec (hprov x hx)
  obtain ⟨_, ay, hgy, _, hdy, _⟩ := contactPoolIdx_spec (hprov y hy)
  rw [hxy] at hgx
  obtain rfl : ax = ay := Option.some_injective _ (hgx.symm.trans hgy)
  exact List.inj_on_of_nodup_map hnd hx hy (hdx.symm.trans hdy)

/-- The baseline-induced selection's objective value equals the baseline's
scheduled data volume (whole-megabyte demands). -/
theorem baselineSel_objective (passes : List GroundPass) (demands : List DataDemand)
    (hint : ∀ d ∈ demands, ∃ z : ℕ, d.data_mb = (z : ℚ)) :
    ((objectiveValue (create_cp_sat_model (preprocess_scheduling_data passes demands)
        .MAXIMIZE_DATA_THROUGHPUT [])
      (baselineSel (preprocess_scheduling_data passes demands)
        (create_baseline_schedule passes demands).1) : ℤ) : ℚ) =
      ((create_baseline_schedule passes demands).1.map (fun c => c.demand_mb)).sum := by
  set pool := preprocess_scheduling_data passes demands with hpool
  set contacts := (create_baseline_schedule passes demands).1 with hcontacts
  obtain ⟨hprov, hnd, _⟩ := baseline_schedule_spec passes demands
  have hobj : (create_cp_sat_model pool .MAXIMIZE_DATA_THROUGHPUT []).objective =
      pool.map (fun a => pyInt a.demand.data_mb) := rfl
  have hnum : (create_cp_sat_model pool .MAXIMIZE_DATA_THROUGHPUT []).num_vars =
      pool.length := rfl
  rw [objectiveValue, hobj]
  have hstep1 : ((pool.map (fun a => pyInt a.demand.data_mb)).enum.map
        (fun ic => if selVar (baselineSel pool contacts) ic.1 then ic.2 else 0)).sum =
      ((pool.map (fun a => pyInt a.demand.data_mb)).enum.map
        (fun ic => if ic.1 ∈ contacts.map (contactPoolIdx pool) then ic.2 else 0)).sum := by
    congr 1
    apply List.map_congr_left
    intro ic hic
    have hlt : ic.1 < pool.length := by
      have h1 := List.mem_enum_iff_get?.mp hic
      have h2 := (List.get?_eq_some.mp h1).1
      simpa using h2
    rw [baselineSel, selVar_indicator, if_pos hlt]
    by_cases hm : ic.1 ∈ contacts.map (contactPoolIdx pool)
    · rw [if_pos hm, decide_eq_true hm]
      rfl
    · rw [if_neg hm, decide_eq_false hm]
      rfl
  rw [hstep1, sum_enum_indicator _ _ (baseline_S_nodup passes demands)]
  rw [List.map_map]
  have hstep2 : (contacts.map ((fun i => (pool.map
        (fun a => pyInt a.demand.data_mb)).getD i 0) ∘ contactPoolIdx pool)) =
      contacts.map (fun c => pyInt c.src_demand.data_mb) := by
    apply List.map_congr_left
    intro c hc
    obtain ⟨_, a, hg, _, _, _, hdm, _⟩ := contactPoolIdx_spec (hprov c hc)
    show (pool.map (fun a => pyInt a.demand.data_mb)).getD (contactPoolIdx pool c) 0 = _
    rw [List.getD_eq_getD_get?, List.get?_map, hg]
    show pyInt a.demand.data_mb = pyInt c.src_demand.data_mb
    rw [hdm]
  rw [hstep2, int_cast_sum_map]
  congr 1
  apply List.map_congr_left
  intro c hc
  obtain ⟨_, hdem, _, _, _, _, hmb⟩ := hprov c hc
  obtain ⟨z, hz⟩ := hint _ (List.get?_mem hdem)
  rw [hmb, hz, pyInt_natCast]
  push_cast
  rfl

/-- For whole-megabyte demands, the objective value of any selection equals
(the integer image of) the extracted total data. -/
theorem objective_cast_eq_total (passes : List GroundPass) (demands : List DataDemand)
    (hint : ∀ d ∈ demands, ∃ z : ℕ, d.data_mb = (z : ℚ)) (sel : List Bool) :
    ((objectiveValue (create_cp_sat_model (preprocess_scheduling_data passes demands)
        .MAXIMIZE_DATA_THROUGHPUT []) sel : ℤ) : ℚ) =
      ((extractContacts (preprocess_scheduling_data passes demands) sel).map
        (fun c => c.demand_mb)).sum := by
  set pool := preprocess_scheduling_data passes demands with hpool
  rw [extract_total_eq_enum_sum]
  have hobj : (create_cp_sat_model pool .MAXIMIZE_DATA_THROUGHPUT []).objective =
      pool.map (fun a => pyInt a.demand.data_mb) := rfl
  rw [objectiveValue, hobj]
  rw [List.enum_map, List.map_map, int_cast_sum_map]
  congr 1
  apply List.map_congr_left
  intro ia hia
  have hamem : ia.2 ∈ pool := List.get?_mem (List.mem_enum_iff_get?.mp hia)
  obtain ⟨_, hd, _⟩ := pool_entry_spec hamem
  obtain ⟨z, hz⟩ := hint _ (List.get?_mem hd)
  show (((if selVar sel (Prod.map id _ ia).1 then (Prod.map id _ ia).2 else 0 : ℤ)) : ℚ) = _
  by_cases hs : selVar sel ia.1 = true
  · simp only [Prod.map, id]
    rw [if_pos hs, if_pos hs, hz, pyInt_natCast]
    push_cast
    rfl
  · simp only [Prod.map, id]
    rw [if_neg hs, if_neg hs]
    push_cast
    rfl

/-! ## C3 (amended): solver ≥ baseline -/

/-- C3 (amended): for inputs whose demand sizes are whole megabytes, whose
demands carry no deadline, and whose pass rise timestamps are nonnegative,
every optimal solution of the data-throughput model schedules at least as
much data as the baseline greedy scheduler.  (The counterexample shows the
restriction is needed: the baseline ignores deadlines, and the objective
truncates fractional megabyte counts.) -/
theorem C3_solver_ge_baseline (passes : List GroundPass) (demands : List DataDemand)
    (hint : ∀ d ∈ demands, ∃ z : ℕ, d.data_mb = (z : ℚ))
    (hdl : ∀ d ∈ demands, d.deadline = none)
    (hrise : ∀ p ∈ passes, 0 ≤ p.rise_time) :
    ∀ (sel : List Bool) (status : String),
      OptimalSolution (create_cp_sat_model (preprocess_scheduling_data passes demands)
        .MAXIMIZE_DATA_THROUGHPUT []) sel →
      ((create_baseline_schedule passes demands).1.map (fun c => c.demand_mb)).sum ≤
        (solve_optimization_model (preprocess_scheduling_data passes demands)
          (create_cp_sat_model (preprocess_scheduling_data passes demands)
            .MAXIMIZE_DATA_THROUGHPUT []) sel status).total_data_scheduled := by
  intro sel status hopt
  have hmb : ∀ d ∈ demands, 0 ≤ d.data_mb := by
    intro d hd
    obtain ⟨z, hz⟩ := hint d hd
    rw [hz]
    positivity
  have hsolB := baselineSel_solves passes demands hmb hdl hrise
  have hobjB := baselineSel_objective passes demands hint
  have hle := hopt.2 _ hsolB
  have htot := objective_cast_eq_total passes demands hint sel
  have htots : (solve_optimization_model (preprocess_scheduling_data passes demands)
      (create_cp_sat_model (preprocess_scheduling_data passes demands)
        .MAXIMIZE_DATA_THROUGHPUT []) sel status).total_data_scheduled =
      ((extractContacts (preprocess_scheduling_data passes demands) sel).map
        (fun c => c.demand_mb)).sum := rfl
  rw [htots, ← htot, ← hobjB]
  exact_mod_cast hle

/-- C3 witness: one pass, one deadline-free 100 MB demand; the optimal
selection `[true]` matches the baseline's 100 MB. -/
theorem C3_solver_ge_baseline_witness :
    ((create_baseline_schedule [pass600] [demandOk]).1.map (fun c => c.demand_mb)).sum ≤
      (solve_optimization_model (preprocess_scheduling_data [pass600] [demandOk])
        (create_cp_sat_model (preprocess_scheduling_data [pass600] [demandOk])
          .MAXIMIZE_DATA_THROUGHPUT []) [true] "OPTIMAL").total_data_scheduled :=
  C3_solver_ge_baseline [pass600] [demandOk]
    (by
      intro d hd
      rw [List.mem_singleton] at hd
      subst hd
      exact ⟨100, by norm_num [demandOk]⟩)
    (by decide) (by decide) [true] "OPTIMAL" (optimal_of_optimalB (by decide))

/-- C2 witness: both parts of the amended no-overlap invariant at a
concrete input (integer rise time). -/
theorem C2_no_overlap_invariant_witness :
    (create_baseline_schedule [pass600] [demandOk]).1.Pairwise bContactsDisjoint ∧
    (solve_optimization_model (preprocess_scheduling_data [pass600] [demandOk])
      (create_cp_sat_model (preprocess_scheduling_data [pass600] [demandOk])
        .MAXIMIZE_DATA_THROUGHPUT []) [true] "OPTIMAL").scheduled_contacts.Pairwise
      contactsDisjoint :=
  ⟨C2_no_overlap_invariant.1 [pass600] [demandOk] (by decide),
   C2_no_overlap_invariant.2 [pass600] [demandOk] .MAXIMIZE_DATA_THROUGHPUT [] [true]
     "OPTIMAL" (by decide)
     (by
       intro p hp
       rw [List.mem_singleton] at hp
       subst hp
       exact ⟨0, by norm_num [pass600]⟩)
     (by decide)⟩
